import Mathlib

/-!
Verification development for `dbcleaner` (a MySQL maintenance tool:
`src/dbcleaner.py` and `src/s3_uploader.py`).

The Python source is shallowly embedded as pure Lean functions.  Effects are
made explicit:

* the database session is an abstract state `σ` with an executor
  `DbSession σ` (models `cursor.execute` + `cursor.rowcount`);
* side effects (statements actually sent, subprocess invocations, file
  creation/removal, directory creation, S3 uploads, sleeps) are recorded in an
  `Event` trace;
* `logging` lines and the `results` list of the script are recorded as string
  lists; each `results.append` site is additionally tagged with the processing
  step it belongs to (`StepTag`), in lockstep with the appended string;
* Python exceptions (`mysql.connector.Error`) are modelled by the `Status`
  result of each function: uncaught errors propagate as `Status.exc`;
* the two `while True` batching loops are given explicit fuel; running out of
  fuel is reported as `Status.fuelOut`, distinguishable from normal return.
-/

/- ## Python string primitives (modelled over `List Char`) -/

/-- Tests whether `p` is a prefix of `s` (char lists). -/
def startsWithL : List Char → List Char → Bool
  | _, [] => true
  | [], _ :: _ => false
  | a :: as, b :: bs => a == b && startsWithL as bs

/-- Tests whether `p` occurs as a contiguous substring of `s` (char lists). -/
def hasSubL : List Char → List Char → Bool
  | [], p => p.isEmpty
  | a :: rest, p => startsWithL (a :: rest) p || hasSubL rest p

/-- Occurrence test on `String`s, via the underlying char lists. -/
def hasSub (s pat : String) : Bool := hasSubL s.toList pat.toList

theorem startsWithL_append (p s : List Char) : startsWithL (p ++ s) p = true := by
  induction p with
  | nil => cases s <;> simp [startsWithL]
  | cons a as ih => simp [startsWithL, ih]

theorem hasSubL_nil_pat (s : List Char) : hasSubL s [] = true := by
  cases s <;> simp [hasSubL, startsWithL]

theorem hasSubL_of_startsWithL (s p : List Char) (h : startsWithL s p = true) :
    hasSubL s p = true := by
  cases s with
  | nil =>
    cases p with
    | nil => simp [hasSubL]
    | cons b bs => simp [startsWithL] at h
  | cons a rest => simp [hasSubL, h]

theorem hasSubL_cons_of {t p : List Char} (h : hasSubL t p = true) (c : Char) :
    hasSubL (c :: t) p = true := by
  simp [hasSubL, h]

theorem hasSubL_append_left (x p y : List Char) :
    hasSubL (x ++ p ++ y) p = true := by
  induction x with
  | nil =>
    exact hasSubL_of_startsWithL _ _ (startsWithL_append p y)
  | cons a as ih =>
    exact hasSubL_cons_of ih a

/-- Fuel-driven worker for `replaceL` (structural recursion, so that concrete
instances reduce in the kernel); the fuel bounds the input length. -/
def replaceLF (pat rep : List Char) : Nat → List Char → List Char
  | 0, s => s
  | _ + 1, [] => []
  | fuel + 1, a :: rest =>
    if startsWithL (a :: rest) pat = true ∧ pat ≠ [] then
      rep ++ replaceLF pat rep fuel ((a :: rest).drop pat.length)
    else
      a :: replaceLF pat rep fuel rest

/-- Models Python `str.replace(pat, rep)`: replaces every occurrence of `pat`,
left to right, non-overlapping.  (For an empty `pat` — which never happens in
the program, the pattern there being `"-p" + password` — this returns `s`
unchanged.) -/
def replaceL (pat rep s : List Char) : List Char := replaceLF pat rep s.length s

/-- Models Python `str.replace` on `String`s. -/
def pyReplace (s pat rep : String) : String :=
  String.mk (replaceL pat.toList rep.toList s.toList)

/-- After a `replaceLF` with enough fuel, the replacement string occurs in the
output whenever the (nonempty) pattern occurred in the input. -/
theorem hasSubL_replaceLF_rep (pat rep : List Char) (hp : pat ≠ []) :
    ∀ fuel s, s.length ≤ fuel → hasSubL s pat = true →
      hasSubL (replaceLF pat rep fuel s) rep = true := by
  intro fuel
  induction fuel with
  | zero =>
    intro s hle h
    have : s = [] := List.length_eq_zero.mp (Nat.le_zero.mp hle)
    subst this
    rw [hasSubL, List.isEmpty_iff] at h
    exact absurd h hp
  | succ f ih =>
    intro s hle h
    cases s with
    | nil =>
      rw [hasSubL, List.isEmpty_iff] at h
      exact absurd h hp
    | cons a rest =>
      rw [replaceLF]
      by_cases hc : startsWithL (a :: rest) pat = true ∧ pat ≠ []
      · rw [if_pos hc]
        have := hasSubL_append_left [] rep
          (replaceLF pat rep f ((a :: rest).drop pat.length))
        simpa using this
      · rw [if_neg hc]
        have hns : ¬ startsWithL (a :: rest) pat = true := by
          intro hs
          exact hc ⟨hs, hp⟩
        rw [hasSubL, Bool.or_eq_true] at h
        rcases h with h | h
        · exact absurd h hns
        · have hle2 : rest.length ≤ f := by
            simp only [List.length_cons] at hle
            omega
          exact hasSubL_cons_of (ih rest hle2 h) a

/-- After a `replaceL`, the replacement string occurs in the output whenever
the (nonempty) pattern occurred in the input. -/
theorem hasSubL_replaceL_rep (pat rep : List Char) (hp : pat ≠ []) :
    ∀ s, hasSubL s pat = true → hasSubL (replaceL pat rep s) rep = true :=
  fun s => hasSubL_replaceLF_rep pat rep hp s.length s (Nat.le_refl _)

/-- Models Python `' '.join(list)`. -/
def joinSpace : List String → String
  | [] => ""
  | [a] => a
  | a :: b :: rest => a ++ " " ++ joinSpace (b :: rest)

theorem toList_append (a b : String) : (a ++ b).toList = a.toList ++ b.toList := by
  cases a with
  | mk da =>
    cases b with
    | mk db => rfl

theorem hasSub_append_mid (a p b : String) : hasSub (a ++ p ++ b) p = true := by
  show hasSubL (a ++ p ++ b).toList p.toList = true
  rw [toList_append, toList_append]
  exact hasSubL_append_left a.toList p.toList b.toList

/-- Models Python `str.lower` for the ASCII strings used by the
configuration keys (`delete_strategy`, `dump_storage`). -/
def pyLowerChar (c : Char) : Char :=
  if 'A' ≤ c ∧ c ≤ 'Z' then Char.ofNat (c.toNat + 32) else c

/-- Models Python `str.lower` (ASCII). -/
def pyLower (s : String) : String := String.mk (s.toList.map pyLowerChar)

/- ## Decimal rendering and `datetime.date` model

`dbcleaner.py` computes the age threshold as
`(datetime.date.today() - datetime.timedelta(days=days)).strftime("%Y-%m-%d")`.
The `datetime` library is an external collaborator; it is modelled here by a
proleptic-Gregorian calendar: `prevDay` steps one day back, `subDays` iterates
it, and `dateToISO` renders `%Y-%m-%d` (year zero-padded to four digits,
month/day to two). -/

/-- The ASCII digit for `n < 10`. -/
def digitChar (n : Nat) : Char := Char.ofNat (48 + n)

/-- Fuel-driven worker for `natDigits` (structural recursion, so that
concrete instances reduce in the kernel). -/
def natDigitsF : Nat → Nat → List Char
  | 0, n => [digitChar (n % 10)]
  | fuel + 1, n =>
    if n < 10 then [digitChar n]
    else natDigitsF fuel (n / 10) ++ [digitChar (n % 10)]

/-- Decimal digits of `n`, most significant first. -/
def natDigits (n : Nat) : List Char := natDigitsF n n

/-- Zero-pads to two digits (`%m` / `%d` of `strftime`). -/
def pad2L (n : Nat) : List Char :=
  if n < 10 then '0' :: natDigits n else natDigits n

/-- Zero-pads to four digits (`%Y` of `strftime`). -/
def pad4L (n : Nat) : List Char :=
  if n < 10 then '0' :: '0' :: '0' :: natDigits n
  else if n < 100 then '0' :: '0' :: natDigits n
  else if n < 1000 then '0' :: natDigits n
  else natDigits n

/-- A calendar date, as `datetime.date`. -/
structure PyDate where
  year : Nat
  month : Nat
  day : Nat
deriving DecidableEq, Repr

/-- Gregorian leap-year test. -/
def isLeap (y : Nat) : Bool := (y % 4 == 0 && y % 100 != 0) || y % 400 == 0

/-- Number of days of month `m` in year `y`. -/
def daysInMonth (y m : Nat) : Nat :=
  if m == 2 then (if isLeap y then 29 else 28)
  else if m == 4 || m == 6 || m == 9 || m == 11 then 30
  else 31

/-- One day earlier. -/
def prevDay (d : PyDate) : PyDate :=
  if d.day > 1 then { d with day := d.day - 1 }
  else if d.month > 1 then
    { d with month := d.month - 1, day := daysInMonth d.year (d.month - 1) }
  else { year := d.year - 1, month := 12, day := 31 }

/-- Models `date - timedelta(days = n)`. -/
def subDays : PyDate → Nat → PyDate
  | d, 0 => d
  | d, n + 1 => subDays (prevDay d) n

/-- Char-list rendering of `strftime("%Y-%m-%d")`. -/
def dateToISOL (d : PyDate) : List Char :=
  pad4L d.year ++ '-' :: (pad2L d.month ++ '-' :: pad2L d.day)

/-- Models `strftime("%Y-%m-%d")`. -/
def dateToISO (d : PyDate) : String := String.mk (dateToISOL d)

/-- A date with fields in calendar range (year bounded for `%Y`). -/
def validDate (d : PyDate) : Prop :=
  1 ≤ d.month ∧ d.month ≤ 12 ∧ 1 ≤ d.day ∧ d.day ≤ 31 ∧ d.year ≤ 9999

theorem daysInMonth_le (y m : Nat) : daysInMonth y m ≤ 31 := by
  unfold daysInMonth
  split
  · split <;> omega
  · split <;> omega

theorem daysInMonth_pos (y m : Nat) : 1 ≤ daysInMonth y m := by
  unfold daysInMonth
  split
  · split <;> omega
  · split <;> omega

theorem validDate_prevDay {d : PyDate} (h : validDate d) : validDate (prevDay d) := by
  obtain ⟨h1, h2, h3, h4, h5⟩ := h
  unfold prevDay
  split
  · exact ⟨h1, h2, by show 1 ≤ d.day - 1; omega, by show d.day - 1 ≤ 31; omega, h5⟩
  · split
    · exact ⟨by show 1 ≤ d.month - 1; omega, by show d.month - 1 ≤ 12; omega,
        daysInMonth_pos _ _, daysInMonth_le _ _, h5⟩
    · exact ⟨by show (1 : Nat) ≤ 12; omega, by show (12 : Nat) ≤ 12; omega,
        by show (1 : Nat) ≤ 31; omega, by show (31 : Nat) ≤ 31; omega,
        by show d.year - 1 ≤ 9999; omega⟩

theorem validDate_subDays {d : PyDate} (h : validDate d) (n : Nat) :
    validDate (subDays d n) := by
  induction n generalizing d with
  | zero => exact h
  | succ k ih => exact ih (validDate_prevDay h)

theorem natDigitsF_lt_ten {n : Nat} (h : n < 10) (fuel : Nat) :
    natDigitsF fuel n = [digitChar n] := by
  cases fuel with
  | zero =>
    show [digitChar (n % 10)] = _
    rw [Nat.mod_eq_of_lt h]
  | succ f =>
    show (if n < 10 then [digitChar n] else _) = _
    rw [if_pos h]

theorem natDigitsF_two (fuel : Nat) {n : Nat} (h1 : 10 ≤ n) (h2 : n < 100) :
    natDigitsF (fuel + 1) n = [digitChar (n / 10), digitChar (n % 10)] := by
  show (if n < 10 then _ else natDigitsF fuel (n / 10) ++ [digitChar (n % 10)]) = _
  rw [if_neg (by omega), natDigitsF_lt_ten (by omega) fuel]
  rfl

theorem natDigitsF_three (fuel : Nat) {n : Nat} (h1 : 100 ≤ n) (h2 : n < 1000) :
    natDigitsF (fuel + 2) n =
      [digitChar (n / 100), digitChar (n / 10 % 10), digitChar (n % 10)] := by
  show (if n < 10 then _
    else natDigitsF (fuel + 1) (n / 10) ++ [digitChar (n % 10)]) = _
  rw [if_neg (by omega), natDigitsF_two fuel (by omega) (by omega)]
  have hq : n / 10 / 10 = n / 100 := by omega
  rw [hq]
  rfl

theorem natDigitsF_four (fuel : Nat) {n : Nat} (h1 : 1000 ≤ n) (h2 : n < 10000) :
    natDigitsF (fuel + 3) n = [digitChar (n / 1000), digitChar (n / 100 % 10),
      digitChar (n / 10 % 10), digitChar (n % 10)] := by
  show (if n < 10 then _
    else natDigitsF (fuel + 2) (n / 10) ++ [digitChar (n % 10)]) = _
  rw [if_neg (by omega), natDigitsF_three fuel (by omega) (by omega)]
  have ha : n / 10 / 100 = n / 1000 := by omega
  have hb : n / 10 / 10 % 10 = n / 100 % 10 := by
    have hq : n / 10 / 10 = n / 100 := by omega
    rw [hq]
  rw [ha, hb]
  rfl

theorem natDigits_lt_ten {n : Nat} (h : n < 10) : natDigits n = [digitChar n] :=
  natDigitsF_lt_ten h n

theorem natDigits_two {n : Nat} (h1 : 10 ≤ n) (h2 : n < 100) :
    natDigits n = [digitChar (n / 10), digitChar (n % 10)] := by
  obtain ⟨m, rfl⟩ : ∃ m, n = m + 1 := ⟨n - 1, by omega⟩
  exact natDigitsF_two m h1 h2

theorem digitChar_isDigit {n : Nat} (h : n < 10) : (digitChar n).isDigit = true := by
  interval_cases n <;> rfl

theorem pad2L_shape {n : Nat} (h : n ≤ 99) :
    ∃ a b, pad2L n = [a, b] ∧ a.isDigit = true ∧ b.isDigit = true := by
  unfold pad2L
  by_cases hn : n < 10
  · rw [if_pos hn, natDigits_lt_ten hn]
    exact ⟨'0', digitChar n, rfl, rfl, digitChar_isDigit hn⟩
  · rw [if_neg hn, natDigits_two (by omega) (by omega)]
    exact ⟨_, _, rfl, digitChar_isDigit (by omega),
      digitChar_isDigit (Nat.mod_lt _ (by omega))⟩

theorem natDigits_three {n : Nat} (h1 : 100 ≤ n) (h2 : n < 1000) :
    natDigits n = [digitChar (n / 100), digitChar (n / 10 % 10), digitChar (n % 10)] := by
  obtain ⟨m, rfl⟩ : ∃ m, n = m + 2 := ⟨n - 2, by omega⟩
  exact natDigitsF_three m h1 h2

theorem natDigits_four {n : Nat} (h1 : 1000 ≤ n) (h2 : n < 10000) :
    natDigits n = [digitChar (n / 1000), digitChar (n / 100 % 10),
      digitChar (n / 10 % 10), digitChar (n % 10)] := by
  obtain ⟨m, rfl⟩ : ∃ m, n = m + 3 := ⟨n - 3, by omega⟩
  exact natDigitsF_four m h1 h2

theorem pad4L_shape {n : Nat} (h : n ≤ 9999) :
    ∃ a b c d, pad4L n = [a, b, c, d] ∧ a.isDigit = true ∧ b.isDigit = true ∧
      c.isDigit = true ∧ d.isDigit = true := by
  unfold pad4L
  by_cases h1 : n < 10
  · rw [if_pos h1, natDigits_lt_ten h1]
    exact ⟨'0', '0', '0', digitChar n, rfl, rfl, rfl, rfl, digitChar_isDigit h1⟩
  · rw [if_neg h1]
    by_cases h2 : n < 100
    · rw [if_pos h2, natDigits_two (by omega) h2]
      exact ⟨'0', '0', _, _, rfl, rfl, rfl, digitChar_isDigit (by omega),
        digitChar_isDigit (Nat.mod_lt _ (by omega))⟩
    · rw [if_neg h2]
      by_cases h3 : n < 1000
      · rw [if_pos h3, natDigits_three (by omega) h3]
        exact ⟨'0', _, _, _, rfl, rfl, digitChar_isDigit (by omega),
          digitChar_isDigit (Nat.mod_lt _ (by omega)),
          digitChar_isDigit (Nat.mod_lt _ (by omega))⟩
      · rw [if_neg h3, natDigits_four (by omega) (by omega)]
        exact ⟨_, _, _, _, rfl, digitChar_isDigit (by omega),
          digitChar_isDigit (Nat.mod_lt _ (by omega)),
          digitChar_isDigit (Nat.mod_lt _ (by omega)),
          digitChar_isDigit (Nat.mod_lt _ (by omega))⟩

/-- The shape `yyyy-MM-dd`: four digits, dash, two digits, dash, two digits. -/
def isoShape (s : String) : Prop :=
  ∃ y1 y2 y3 y4 m1 m2 d1 d2 : Char,
    s.toList = [y1, y2, y3, y4, '-', m1, m2, '-', d1, d2] ∧
    ∀ c, c ∈ [y1, y2, y3, y4, m1, m2, d1, d2] → c.isDigit = true

theorem dateToISO_isoShape {d : PyDate} (h : validDate d) : isoShape (dateToISO d) := by
  obtain ⟨_, h2, _, h4, h5⟩ := h
  obtain ⟨y1, y2, y3, y4, hy, hy1, hy2, hy3, hy4⟩ := pad4L_shape h5
  obtain ⟨m1, m2, hm, hm1, hm2⟩ := pad2L_shape (n := d.month) (by omega)
  obtain ⟨d1, d2, hd, hd1, hd2⟩ := pad2L_shape (n := d.day) (by omega)
  refine ⟨y1, y2, y3, y4, m1, m2, d1, d2, ?_, ?_⟩
  · show dateToISOL d = _
    rw [dateToISOL, hy, hm, hd]
    rfl
  · intro c hc
    simp only [List.mem_cons, List.not_mem_nil, or_false] at hc
    rcases hc with rfl | rfl | rfl | rfl | rfl | rfl | rfl | rfl <;> assumption

/- ## Effect model -/

/-- Abstract rows returned by a query (`cursor.fetchall()`). -/
abbrev Rows := List String

/-- Result of `cursor.execute` on the session: either a driver error
(`mysql.connector.Error`) or success with the new `cursor.rowcount` and an
optional result set (`cursor.with_rows` / `cursor.fetchall`). -/
inductive ExecResult where
  | ok (rowcount : Nat) (rows : Option Rows)
  | err (msg : String)
deriving DecidableEq, Repr

/-- The database session boundary: an abstract session state `σ` and the
behaviour of `cursor.execute` on it. -/
structure DbSession (σ : Type) where
  exec : σ → String → σ × ExecResult

/-- Observable side effects of the program. -/
inductive Event where
  | sqlExec (stmt : String)
  | commit
  | mkdir (path : String)
  | subproc (args : List String)
  | fileCreate (path : String)
  | fileRemove (path : String)
  | s3Upload (file key : String)
  | sleep (secs : Nat)
deriving DecidableEq, Repr

/-- The processing step a `results.append` belongs to (ghost tag recorded in
lockstep with `results`). -/
inductive StepTag where
  | header
  | backup
  | fk
  | del
  | opt
  | coord
deriving DecidableEq, Repr

/-- Program state threaded through the embedding: session state, the
`cursor.rowcount` attribute, logger lines, the event trace, the `results`
list (with its ghost step tags), existing directories on disk, and a ghost
trace of per-batch affected counts (mirrors the `Batch deleted N rows`
messages). -/
structure St (σ : Type) where
  db : σ
  rowcount : Nat
  logs : List String
  events : List Event
  results : List String
  steps : List StepTag
  fsDirs : List String
  batchLog : List Nat
deriving DecidableEq

/-- Fresh state over session state `d0` with directories `fs` existing. -/
def st0 {σ : Type} (d0 : σ) (fs : List String) : St σ :=
  ⟨d0, 0, [], [], [], [], fs, []⟩

/-- Appends a logger line. -/
def logL {σ : Type} (st : St σ) (msg : String) : St σ :=
  { st with logs := st.logs ++ [msg] }

/-- Models `results.append(msg)` followed by logging the same message. -/
def resLog {σ : Type} (st : St σ) (tag : StepTag) (msg : String) : St σ :=
  { st with
    results := st.results ++ [msg]
    steps := st.steps ++ [tag]
    logs := st.logs ++ [msg] }

/-- Appends an event to the trace. -/
def emit {σ : Type} (st : St σ) (e : Event) : St σ :=
  { st with events := st.events ++ [e] }

/-- Outcome of a piece of the program: normal return, an uncaught
`mysql.connector.Error` propagating, or loop fuel exhausted (the modelled
`while True` loop did not finish within the given fuel). -/
inductive Status where
  | ok
  | exc (msg : String)
  | fuelOut
deriving DecidableEq, Repr

/- ## SQL Executor (`run_sql`, lines 33–51) -/

/-- Embedding of `run_sql(cursor, connection, sql_command, dry_run)`.
Logs the statement; in dry-run mode logs again and returns `None`; otherwise
executes (possibly raising), drains extra result sets, commits, and returns
the rows if the statement produced any. -/
def run_sql {σ : Type} (D : DbSession σ) (st : St σ) (sql_command : String)
    (dry_run : Bool) : St σ × Except String (Option Rows) :=
  let st := logL st ("Executing SQL: " ++ sql_command)
  if dry_run then
    (logL st ("[DRY RUN] Would execute SQL: " ++ sql_command), .ok none)
  else
    let p := D.exec st.db sql_command
    let st := emit { st with db := p.1 } (.sqlExec sql_command)
    match p.2 with
    | .err e => (st, .error e)
    | .ok rc rows => (emit { st with rowcount := rc } .commit, .ok rows)

/- ## Foreign Key Auditor (`check_foreign_keys`, lines 54–68) -/

/-- The catalog query of `check_foreign_keys` (the exact text is irrelevant to
the claims; what matters is that it is sent through `cursor.execute`). -/
def fkQuery (db_name table_name : String) : String :=
  "SELECT CONSTRAINT_NAME, TABLE_NAME, COLUMN_NAME, REFERENCED_TABLE_NAME, "
    ++ "REFERENCED_COLUMN_NAME FROM INFORMATION_SCHEMA.KEY_COLUMN_USAGE WHERE "
    ++ "TABLE_SCHEMA = \x27" ++ db_name ++ "\x27 AND TABLE_NAME = \x27"
    ++ table_name ++ "\x27 AND REFERENCED_TABLE_NAME IS NOT NULL;"

/-- Embedding of `check_foreign_keys(cursor, db_name, table_name)`: logs, then
executes the catalog query directly on the cursor (note: with no dry-run
guard, as in the source) and returns the fetched rows, or propagates the
driver error. -/
def check_foreign_keys {σ : Type} (D : DbSession σ) (st : St σ)
    (db_name table_name : String) : St σ × Except String Rows :=
  let st := logL st ("Checking foreign keys for table `" ++ db_name ++ "`.`"
    ++ table_name ++ "`")
  let p := D.exec st.db (fkQuery db_name table_name)
  let st := emit { st with db := p.1 } (.sqlExec (fkQuery db_name table_name))
  match p.2 with
  | .err e => (st, .error e)
  | .ok rc rows => ({ st with rowcount := rc }, .ok (rows.getD []))

/- ## Backup Gate (`dump_table`, lines 71–140) -/

/-- Connection parameters (from the environment in `main`). -/
structure ConnParams where
  host : String
  user : String
  password : String
  mysqldump_path : String
deriving DecidableEq, Repr

/-- Outcome of the external dump subprocess and the S3 upload for one
`dump_table` call (the dump utility and object storage are external
collaborators; their behaviour is an oracle parameter). -/
structure DumpOutcome where
  /-- `some e`: the `try` block of the streaming dump raised exception `e`. -/
  popenErr : Option String
  /-- whether `gzip.open` had already created the dump file when the
  exception was raised. -/
  fileWritten : Bool
  /-- exit status of the `mysqldump` process. -/
  retcode : Nat
  /-- decoded standard error of the process. -/
  stderr : String
  /-- `some e`: `S3Uploader.upload_file` failed with error `e`. -/
  uploadErr : Option String
deriving DecidableEq, Repr

/-- Whether this outcome makes a real-mode `dump_table` return `None`. -/
def dumpFails (oc : DumpOutcome) : Bool :=
  oc.popenErr.isSome || oc.retcode != 0

/-- Run-wide oracle data: `AWS_BUCKET`, the timestamp `strftime` result, the
current date (`datetime.date.today()`), and the dump outcome per table. -/
structure Env where
  aws_bucket : String
  timestamp : String
  today : PyDate
  dumpOutcome : String → DumpOutcome

/-- The `dump_args` list built in `dump_table` (line 90). -/
def dump_args (conn : ConnParams) (db_name table_name : String) : List String :=
  [conn.mysqldump_path, "-h", conn.host, "-u", conn.user,
    "-p" ++ conn.password, db_name, table_name]

/-- The credential-masked dump command (line 91):
`' '.join(dump_args).replace('-p' + password, '-p****')`. -/
def masked_dump (conn : ConnParams) (db_name table_name : String) : String :=
  pyReplace (joinSpace (dump_args conn db_name table_name))
    ("-p" ++ conn.password) "-p****"

/-- The dump file name `{db}_{table}_{timestamp}.sql.gz` (line 79). -/
def dumpFileName (db_name table_name timestamp : String) : String :=
  db_name ++ "_" ++ table_name ++ "_" ++ timestamp ++ ".sql.gz"

/-- Embedding of `dump_table(db_name, table_name, conn_params, table_config,
dry_run)`.  Returns the updated state and `some dump_file` on success /
dry-run, `none` on failure.  Key source facts mirrored: `os.makedirs`
runs before the dry-run branch; a dry run logs the masked command (and an
upload notice for s3 storage) and returns the file path without any
subprocess, file or upload; a real run streams the subprocess through gzip,
deletes the partial file and returns `None` on a nonzero exit or an
exception; an S3 upload failure is logged but does not change the return. -/
def dump_table {σ : Type} (db_name table_name : String) (conn : ConnParams)
    (dump_storage_cfg dump_path : String) (dry_run : Bool) (env : Env)
    (st : St σ) : St σ × Option String :=
  let file_name := dumpFileName db_name table_name env.timestamp
  let dump_storage := pyLower dump_storage_cfg
  let st := if dump_path ∈ st.fsDirs then st
    else emit { st with fsDirs := st.fsDirs ++ [dump_path] } (.mkdir dump_path)
  let dump_file := dump_path ++ "/" ++ file_name
  let masked := masked_dump conn db_name table_name
  if dry_run then
    let st := logL st ("[DRY RUN] Would execute dump command: " ++ masked)
    let st := if dump_storage == "s3" then
        logL st ("[DRY RUN] Would execute S3 upload to: " ++ env.aws_bucket)
      else st
    (st, some dump_file)
  else
    let st := logL st ("Dumping table `" ++ db_name ++ "`.`" ++ table_name
      ++ "` to " ++ dump_file)
    let oc := env.dumpOutcome table_name
    let st := emit st (.subproc (dump_args conn db_name table_name))
    match oc.popenErr with
    | some e =>
      let st := if oc.fileWritten then emit st (.fileCreate dump_file) else st
      let st := logL st ("Error during streaming dump for `" ++ table_name
        ++ "`: " ++ e)
      let st := if oc.fileWritten then emit st (.fileRemove dump_file) else st
      (st, none)
    | none =>
      let st := emit st (.fileCreate dump_file)
      if oc.retcode != 0 then
        let st := logL st ("Error dumping table `" ++ table_name ++ "`: "
          ++ oc.stderr)
        let st := emit st (.fileRemove dump_file)
        (st, none)
      else
        let st := logL st ("Dump compressed to " ++ dump_file)
        if dump_storage == "s3" then
          let s3_key := "db_dumps/" ++ file_name
          let st := emit st (.s3Upload dump_file s3_key)
          match oc.uploadErr with
          | some e =>
            (logL st ("Error uploading " ++ dump_file ++ " to S3: "
              ++ "Failed to upload file to S3: " ++ e), some dump_file)
          | none =>
            let st := logL st ("Uploaded " ++ dump_file ++ " to S3 as " ++ s3_key)
            (emit st (.fileRemove dump_file), some dump_file)
        else
          (st, some dump_file)

/- ## Table configuration (per-table YAML options, §6 of the spec) -/

/-- Configuration of one table, with the source's defaults for absent keys. -/
structure TableSpec where
  name : String
  dump_before : Bool := false
  check_foreign_keys : Bool := false
  dump_storage : String := "local"
  dump_path : String := "."
  delete_strategy : Option String := none
  delete_condition : Option String := none
  delete_batch_size : Option Nat := none
  delete_batch_delay : Nat := 0
  delete_older_than_days : Option Nat := none
  date_column : Option String := none
  run_optimize : Bool := false
deriving DecidableEq, Repr

/-- Appends one affected count to the ghost batch trace. -/
def recordBatch {σ : Type} (st : St σ) (n : Nat) : St σ :=
  { st with batchLog := st.batchLog ++ [n] }

/- ## Batched Deletion Engine (`process_table`, lines 175–251) -/

/-- The batching loop of the `condition` strategy (lines 203–211), with
explicit fuel for the source's `while True`. -/
def condLoop {σ : Type} (D : DbSession σ) (table_name cond : String)
    (batch delay : Nat) (dry_run : Bool) : Nat → St σ → St σ × Status
  | 0, st => (st, .fuelOut)
  | fuel + 1, st =>
    let sql := "DELETE FROM `" ++ table_name ++ "` WHERE " ++ cond
      ++ " LIMIT " ++ toString batch ++ ";"
    let p := run_sql D st sql dry_run
    match p.2 with
    | .error e => (p.1, .exc e)
    | .ok _ =>
      let affected := if !dry_run then p.1.rowcount else 0
      let st := recordBatch (resLog p.1 .del ("Batch deleted "
        ++ toString affected ++ " rows from " ++ table_name)) affected
      if affected < batch then (st, .ok)
      else
        let st := if delay != 0 && !dry_run then emit st (.sleep delay) else st
        condLoop D table_name cond batch delay dry_run fuel st

/-- The batching loop of the `older_than_days` strategy (lines 234–243). -/
def olderLoop {σ : Type} (D : DbSession σ) (table_name condition : String)
    (batch_size batch_delay : Nat) (dry_run : Bool) : Nat → St σ → St σ × Status
  | 0, st => (st, .fuelOut)
  | fuel + 1, st =>
    let sql := "DELETE FROM `" ++ table_name ++ "` WHERE " ++ condition
      ++ " LIMIT " ++ toString batch_size ++ ";"
    let p := run_sql D st sql dry_run
    match p.2 with
    | .error e => (p.1, .exc e)
    | .ok _ =>
      let affected := if !dry_run then p.1.rowcount else 0
      let st := recordBatch (resLog p.1 .del ("Batch deleted "
        ++ toString affected ++ " rows from `" ++ table_name ++ "`")) affected
      if affected < batch_size then (st, .ok)
      else
        let st := if batch_delay != 0 && !dry_run then
            emit st (.sleep batch_delay)
          else st
        olderLoop D table_name condition batch_size batch_delay dry_run fuel st

/-- The age-threshold predicate (lines 226–227):
`{date_col} < '{(today - days).strftime("%Y-%m-%d")}'`. -/
def olderCondition (date_col : String) (today : PyDate) (days : Nat) : String :=
  date_col ++ " < \x27" ++ dateToISO (subDays today days) ++ "\x27"

/-- The delete-strategy dispatch (lines 178–251).  `truncate` and `condition`
are matched on the lowercased strategy; `older_than_days` is compared
verbatim.  Only the truncate statement is wrapped in `try/except`; a driver
error in the condition / older_than_days deletes propagates as `.exc`. -/
def deleteSection {σ : Type} (D : DbSession σ) (env : Env) (table : TableSpec)
    (dry_run : Bool) (fuel : Nat) (st : St σ) : St σ × Status :=
  let table_name := table.name
  match table.delete_strategy with
  | none => (st, .ok)
  | some ds =>
    if pyLower ds == "truncate" then
      let sql := "TRUNCATE TABLE `" ++ table_name ++ "`;"
      let p := run_sql D st sql dry_run
      match p.2 with
      | .ok _ => (resLog p.1 .del ("Table `" ++ table_name
          ++ "` truncated successfully."), .ok)
      | .error e => (resLog p.1 .del ("Error truncating table `" ++ table_name
          ++ "`: " ++ e), .ok)
    else if pyLower ds == "condition" then
      let cond := table.delete_condition.getD ""
      if cond == "" then
        (resLog st .del ("No delete_condition for " ++ table_name), .ok)
      else
        let batch := table.delete_batch_size.getD 0
        let delay := table.delete_batch_delay
        if batch != 0 then
          let st := logL st ("Condition delete in batches of "
            ++ toString batch ++ ", delay " ++ toString delay)
          condLoop D table_name cond batch delay dry_run fuel st
        else
          let sql := "DELETE FROM `" ++ table_name ++ "` WHERE " ++ cond ++ ";"
          let p := run_sql D st sql dry_run
          match p.2 with
          | .error e => (p.1, .exc e)
          | .ok _ =>
            let affected := if !dry_run then p.1.rowcount else 0
            (resLog p.1 .del ("Deleted " ++ toString affected ++ " rows from "
              ++ table_name ++ " using condition"), .ok)
    else if ds == "older_than_days" then
      match table.delete_older_than_days with
      | none => (logL st ("No delete_older_than_days specified for "
          ++ table_name ++ "; skipping."), .ok)
      | some days =>
        let date_col := table.date_column.getD "date"
        let condition := olderCondition date_col env.today days
        let batch_size := table.delete_batch_size.getD 0
        let batch_delay := table.delete_batch_delay
        if batch_size != 0 then
          let st := logL st ("Deleting in batches of " ++ toString batch_size
            ++ " with " ++ toString batch_delay ++ "s delay")
          olderLoop D table_name condition batch_size batch_delay dry_run fuel st
        else
          let sql := "DELETE FROM `" ++ table_name ++ "` WHERE "
            ++ condition ++ ";"
          let p := run_sql D st sql dry_run
          match p.2 with
          | .error e => (p.1, .exc e)
          | .ok _ =>
            let affected := if !dry_run then p.1.rowcount else 0
            (resLog p.1 .del ("Deleted " ++ toString affected
              ++ " rows older than " ++ toString days ++ " days from `"
              ++ table_name ++ "`"), .ok)
    else (st, .ok)

/-- The foreign-key audit step (lines 159–173): advisory, errors caught. -/
def fkSection {σ : Type} (D : DbSession σ) (db_name table_name : String)
    (st : St σ) : St σ :=
  let p := check_foreign_keys D st db_name table_name
  match p.2 with
  | .ok fk_info =>
    if fk_info != ([] : Rows) then
      resLog p.1 .fk ("Foreign keys found for `" ++ table_name ++ "`: "
        ++ toString fk_info)
    else
      resLog p.1 .fk ("No foreign keys found for `" ++ table_name ++ "`.")
  | .error e => resLog p.1 .fk ("Error checking foreign keys for `"
      ++ table_name ++ "`: " ++ e)

/-- Renders the Python value logged for `optimize_result`. -/
def renderOptRows : Option Rows → String
  | none => "None"
  | some rs => toString rs

/-- The optimize step (lines 253–263): errors caught. -/
def optimizeSection {σ : Type} (D : DbSession σ) (table_name : String)
    (dry_run : Bool) (st : St σ) : St σ :=
  let sql := "OPTIMIZE TABLE `" ++ table_name ++ "`;"
  let p := run_sql D st sql dry_run
  match p.2 with
  | .ok optimize_result => resLog p.1 .opt ("Optimized `" ++ table_name
      ++ "`: " ++ renderOptRows optimize_result)
  | .error e => resLog p.1 .opt ("Error optimizing table `" ++ table_name
      ++ "`: " ++ e)

/- ## Table Processor (`process_table`, lines 143–263) -/

/-- The steps of `process_table` after the dump gate (lines 159–263): the
advisory foreign-key audit, the delete strategies, and optimize.  An uncaught
driver error from the delete section propagates as `.exc`, skipping
optimize. -/
def afterGate {σ : Type} (D : DbSession σ) (env : Env) (db_name : String)
    (table : TableSpec) (dry_run : Bool) (fuel : Nat) (st : St σ) :
    St σ × Status :=
  let table_name := table.name
  let st := if table.check_foreign_keys then fkSection D db_name table_name st
    else st
  let p := deleteSection D env table dry_run fuel st
  match p.2 with
  | .ok =>
    (if table.run_optimize then optimizeSection D table_name dry_run p.1
      else p.1, .ok)
  | s => (p.1, s)

/-- Embedding of `process_table`.  Steps in source order: header line; the
dump-before gate (early return with a skip line when the dump reports
failure); then `afterGate` (audit, delete, optimize). -/
def process_table {σ : Type} (D : DbSession σ) (env : Env) (conn : ConnParams)
    (db_name : String) (table : TableSpec) (dry_run : Bool) (fuel : Nat)
    (st : St σ) : St σ × Status :=
  let table_name := table.name
  let st := resLog st .header ("Processing table `" ++ db_name ++ "`.`"
    ++ table_name ++ "`")
  let gate :=
    if table.dump_before then
      let p := dump_table db_name table_name conn table.dump_storage
        table.dump_path dry_run env st
      if p.2.isNone then
        (resLog p.1 .backup ("Skipping `" ++ table_name
          ++ "` due to dump failure."), false)
      else (p.1, true)
    else (st, true)
  if gate.2 then afterGate D env db_name table dry_run fuel gate.1
  else (gate.1, .ok)

/- ## Run Coordinator (`main`, lines 266–324) -/

/-- One `databases:` entry of the configuration. -/
structure DbGroup where
  name : String
  tables : List TableSpec
deriving DecidableEq, Repr

/-- The loaded configuration document. -/
structure Config where
  databases : List DbGroup
deriving DecidableEq, Repr

/-- Python exception classes observable at the top level of `main`. -/
inductive PyErr where
  /-- `mysql.connector.Error` (the only class caught by `except Error`). -/
  | mysqlErr (msg : String)
  /-- `AttributeError` (e.g. `None.is_connected()`). -/
  | attrErr (msg : String)
  /-- an I/O or parse error from `load_config` (not a `mysql.connector.Error`). -/
  | ioErr (msg : String)
deriving DecidableEq, Repr

/-- Oracle data for one `main` invocation: what `load_config` yields and
whether `mysql.connector.connect` raises, plus the session behaviour. -/
structure MainEnv (σ : Type) where
  configLoad : Except String Config
  connectErr : Option String
  D : DbSession σ
  initDb : σ
  fsDirs0 : List String

/-- Result of `main`: final state, whether `connection.close()` ran, the
exception escaping `main` uncaught (if any), and whether some batching loop
exhausted its fuel (in which case the run is still "inside a loop" and the
remaining fields describe the state at that point). -/
structure MainOut (σ : Type) where
  st : St σ
  closed : Bool
  uncaught : Option PyErr
  fuelOut : Bool

/-- The `USE` statement issued per database group (line 301). -/
def useStmt (db_name : String) : String := "USE `" ++ db_name ++ "`;"

/-- Processes the tables of one group in order (lines 311–312), propagating
an uncaught exception (or fuel exhaustion). -/
def runTables {σ : Type} (D : DbSession σ) (env : Env) (conn : ConnParams)
    (db_name : String) (dry_run : Bool) (fuel : Nat) :
    List TableSpec → St σ → St σ × Status
  | [], st => (st, .ok)
  | t :: rest, st =>
    let p := process_table D env conn db_name t dry_run fuel st
    match p.2 with
    | .ok => runTables D env conn db_name dry_run fuel rest p.1
    | s => (p.1, s)

/-- Processes the database groups in order (lines 298–312): selects each
database with `USE` (failure logged, group skipped, run continues), then
processes its tables. -/
def runDbs {σ : Type} (D : DbSession σ) (env : Env) (conn : ConnParams)
    (dry_run : Bool) (fuel : Nat) : List DbGroup → St σ → St σ × Status
  | [], st => (st, .ok)
  | g :: rest, st =>
    let p := D.exec st.db (useStmt g.name)
    let st := emit { st with db := p.1 } (.sqlExec (useStmt g.name))
    match p.2 with
    | .err e =>
      let st := resLog st .coord ("Error selecting database `" ++ g.name
        ++ "`: " ++ e)
      runDbs D env conn dry_run fuel rest st
    | .ok rc _ =>
      let st := resLog { st with rowcount := rc } .coord ("Using database `"
        ++ g.name ++ "`")
      let q := runTables D env conn g.name dry_run fuel g.tables st
      match q.2 with
      | .ok => runDbs D env conn dry_run fuel rest q.1
      | s => (q.1, s)

/-- Embedding of `main` (lines 266–324).  `load_config` runs before the
`try`, so its failure escapes.  Inside the `try`, a failed `connect` raises
`Error`, which the `except` catches — but then the `finally` evaluates
`connection.is_connected()` on `None` and an `AttributeError` escapes.  With
an open connection, any `Error` propagating from the table loop is caught and
logged by the `except` clause, and the `finally` closes the connection. -/
def mainRun {σ : Type} (E : MainEnv σ) (env : Env) (conn : ConnParams)
    (config_path : String) (dry_run : Bool) (fuel : Nat) : MainOut σ :=
  let st := logL (st0 E.initDb E.fsDirs0)
    ("Loading configuration from " ++ config_path)
  match E.configLoad with
  | .error e => ⟨st, false, some (.ioErr e), false⟩
  | .ok config =>
    match E.connectErr with
    | some e =>
      let st := logL st ("Error connecting to MySQL: " ++ e)
      ⟨st, false,
        some (.attrErr "NoneType object has no attribute is_connected"), false⟩
    | none =>
      let st := logL st "Successfully connected to MySQL"
      let p := runDbs E.D env conn dry_run fuel config.databases st
      match p.2 with
      | .ok =>
        let st := logL p.1 "Maintenance Results:"
        let st := st.results.foldl (fun acc r => logL acc r) st
        ⟨logL st "MySQL connection closed", true, none, false⟩
      | .exc e =>
        let st := logL p.1 ("Error connecting to MySQL: " ++ e)
        ⟨logL st "MySQL connection closed", true, none, false⟩
      | .fuelOut => ⟨p.1, false, none, true⟩

/- ## Helper predicates and concrete fixtures -/

/-- Whether an event is a statement actually sent to the session. -/
def isSqlExec : Event → Bool
  | .sqlExec _ => true
  | _ => false

/-- Whether an event is the execution of a `DELETE` statement. -/
def isDeleteExec : Event → Bool
  | .sqlExec s => startsWithL s.toList ['D', 'E', 'L', 'E', 'T', 'E']
  | _ => false

/-- Number of result lines recorded for a given step. -/
def tagCount {σ : Type} (st : St σ) (t : StepTag) : Nat :=
  st.steps.countP (fun x => x == t)

/-- A session whose statements always succeed with rowcount 0 and no rows. -/
def unitSession : DbSession Unit := ⟨fun _ _ => ((), .ok 0 none)⟩

/-- A session modelling a table that holds `n` rows matching the predicate of
the issued `DELETE ... LIMIT B` statements and no concurrent writers: the
session state is the number of matching rows left; each statement deletes
`min n B` of them and reports that as the affected row count. -/
def rowsSession (B : Nat) : DbSession Nat :=
  ⟨fun n _ => (n - B, .ok (min n B) none)⟩

/-- A session that fails every `DELETE` statement with a driver error and
accepts everything else. -/
def errDeleteSession : DbSession Unit :=
  ⟨fun u s => (u, if startsWithL s.toList ['D', 'E', 'L', 'E', 'T', 'E'] then
    .err "deadlock" else .ok 0 none)⟩

/-- Fixture: an oracle environment whose dumps succeed. -/
def exEnv : Env := ⟨"bucket", "20260101_120000", ⟨2026, 10, 12⟩,
  fun _ => ⟨none, false, 0, "", none⟩⟩

/-- Fixture: an oracle environment whose dump subprocess exits with status 1. -/
def exFailEnv : Env := ⟨"bucket", "20260101_120000", ⟨2026, 10, 12⟩,
  fun _ => ⟨none, true, 1, "access denied", none⟩⟩

/-- Fixture: connection parameters. -/
def exConn : ConnParams := ⟨"dbhost", "dbuser", "s3cret", "mysqldump"⟩

/- ## Lemmas about `dump_table` -/

theorem dump_table_dry {σ : Type} (db_name table_name : String)
    (conn : ConnParams) (storage path : String) (env : Env) (st : St σ) :
    (dump_table db_name table_name conn storage path true env st).2 =
        some (path ++ "/" ++ dumpFileName db_name table_name env.timestamp) ∧
      (dump_table db_name table_name conn storage path true env st).1.events =
        st.events ++ (if path ∈ st.fsDirs then [] else [.mkdir path]) ∧
      (dump_table db_name table_name conn storage path true env st).1.logs =
        st.logs ++ ("[DRY RUN] Would execute dump command: "
            ++ masked_dump conn db_name table_name) ::
          (if pyLower storage == "s3" then
            ["[DRY RUN] Would execute S3 upload to: " ++ env.aws_bucket]
          else []) ∧
      (dump_table db_name table_name conn storage path true env st).1.results =
        st.results ∧
      (dump_table db_name table_name conn storage path true env st).1.steps =
        st.steps ∧
      (dump_table db_name table_name conn storage path true env st).1.batchLog =
        st.batchLog := by
  unfold dump_table
  by_cases hfs : path ∈ st.fsDirs <;>
    by_cases hs3 : pyLower storage == "s3" <;>
      simp [hfs, hs3, logL, emit]

theorem dump_table_fails_none {σ : Type} (db_name table_name : String)
    (conn : ConnParams) (storage path : String) (env : Env) (st : St σ)
    (hf : dumpFails (env.dumpOutcome table_name) = true) :
    (dump_table db_name table_name conn storage path false env st).2 = none := by
  unfold dump_table
  unfold dumpFails at hf
  by_cases hfs : path ∈ st.fsDirs <;>
    cases hpe : (env.dumpOutcome table_name).popenErr <;>
      simp [hfs, hpe, logL, emit] <;>
        simp [hpe] at hf <;>
          simp [hf]

theorem dump_table_frame {σ : Type} (db_name table_name : String)
    (conn : ConnParams) (storage path : String) (dry_run : Bool) (env : Env)
    (st : St σ) :
    (dump_table db_name table_name conn storage path dry_run env st).1.results =
        st.results ∧
      (dump_table db_name table_name conn storage path dry_run env st).1.steps =
        st.steps ∧
      (dump_table db_name table_name conn storage path dry_run env st).1.batchLog
        = st.batchLog ∧
      (dump_table db_name table_name conn storage path dry_run env st).1.db
        = st.db ∧
      (dump_table db_name table_name conn storage path dry_run env st).1.rowcount
        = st.rowcount ∧
      List.countP isSqlExec
          (dump_table db_name table_name conn storage path dry_run env st).1.events
        = List.countP isSqlExec st.events ∧
      List.countP isDeleteExec
          (dump_table db_name table_name conn storage path dry_run env st).1.events
        = List.countP isDeleteExec st.events := by
  unfold dump_table
  cases dry_run <;>
    by_cases hfs : path ∈ st.fsDirs <;>
      cases hpe : (env.dumpOutcome table_name).popenErr <;>
        cases hfw : (env.dumpOutcome table_name).fileWritten <;>
          by_cases hrc : (env.dumpOutcome table_name).retcode != 0 <;>
            by_cases hs3 : pyLower storage == "s3" <;>
              cases hue : (env.dumpOutcome table_name).uploadErr <;>
                simp [hfs, hpe, hfw, hrc, hs3, hue, logL, emit, isSqlExec,
                  isDeleteExec]

/- ## Claim C3 -/

/-- Claim C3, counterexample: the claim states that a dry-run `dump_table`
creates no file or directory on disk, but `os.makedirs(dump_path,
exist_ok=True)` (line 83) runs before the dry-run branch: invoked in dry-run
mode with `dump_path = "backups"` absent from the filesystem, the call
creates that directory (the embedding records a `mkdir` event exactly when
the directory did not exist). -/
theorem claim_C3_counterexample :
    (dump_table "app" "events" exConn "local" "backups" true exEnv
        (st0 () [])).1.events = [Event.mkdir "backups"] ∧
      (dump_table "app" "events" exConn "local" "backups" true exEnv
        (st0 () [])).1.fsDirs = ["backups"] := by
  constructor <;> decide

/-- Claim C3, amended: for every dry-run invocation of `dump_table`, no
subprocess is invoked, no dump file is created, and no network call occurs —
the only filesystem effect is that the dump directory is created when absent
(`os.makedirs` runs before the dry-run branch); the masked command is logged
(plus, for s3 storage, a dry-run upload notice), and a non-null simulated
success is returned. -/
theorem claim_C3 {σ : Type} (db_name table_name : String) (conn : ConnParams)
    (storage path : String) (env : Env) (st : St σ) :
    (dump_table db_name table_name conn storage path true env st).2 =
        some (path ++ "/" ++ dumpFileName db_name table_name env.timestamp) ∧
      (dump_table db_name table_name conn storage path true env st).1.events =
        st.events ++ (if path ∈ st.fsDirs then [] else [.mkdir path]) ∧
      (dump_table db_name table_name conn storage path true env st).1.logs =
        st.logs ++ ("[DRY RUN] Would execute dump command: "
            ++ masked_dump conn db_name table_name) ::
          (if pyLower storage == "s3" then
            ["[DRY RUN] Would execute S3 upload to: " ++ env.aws_bucket]
          else []) ∧
      (dump_table db_name table_name conn storage path true env st).1.results =
        st.results := by
  obtain ⟨h1, h2, h3, h4, _⟩ := dump_table_dry db_name table_name conn storage
    path env st
  exact ⟨h1, h2, h3, h4⟩

/- ## Claim C2 -/

/-- The header line of `process_table`. -/
def headerMsg (db_name table_name : String) : String :=
  "Processing table `" ++ db_name ++ "`.`" ++ table_name ++ "`"

/-- The skip line recorded on dump failure. -/
def skipMsg (table_name : String) : String :=
  "Skipping `" ++ table_name ++ "` due to dump failure."

/-- Claim C2, confirmed: for a table with `dump_before = true` whose (real
mode) dump fails — `dump_table` returns `None` — `process_table` issues no
SQL statement at all (so no foreign-key audit query, no delete, no optimize),
appends the skip-reason line to the results after the header, and returns
normally. -/
theorem claim_C2 {σ : Type} (D : DbSession σ) (env : Env) (conn : ConnParams)
    (db_name : String) (t : TableSpec) (fuel : Nat) (st : St σ)
    (hd : t.dump_before = true)
    (hf : dumpFails (env.dumpOutcome t.name) = true) :
    (process_table D env conn db_name t false fuel st).2 = Status.ok ∧
      (process_table D env conn db_name t false fuel st).1.results =
        st.results ++ [headerMsg db_name t.name, skipMsg t.name] ∧
      (process_table D env conn db_name t false fuel st).1.steps =
        st.steps ++ [.header, .backup] ∧
      List.countP isSqlExec
          (process_table D env conn db_name t false fuel st).1.events =
        List.countP isSqlExec st.events ∧
      (process_table D env conn db_name t false fuel st).1.batchLog =
        st.batchLog := by
  have hnone := dump_table_fails_none db_name t.name conn t.dump_storage
    t.dump_path env (resLog st .header (headerMsg db_name t.name)) hf
  have hframe := dump_table_frame db_name t.name conn t.dump_storage
    t.dump_path false env (resLog st .header (headerMsg db_name t.name))
  obtain ⟨hr, hs, hb, _, _, he, _⟩ := hframe
  simp only [headerMsg, skipMsg] at hnone hr hs hb he ⊢
  simp only [resLog] at hnone hr hs hb he
  simp only [process_table, resLog, hd, if_true, hnone, Option.isNone_none,
    Bool.false_eq_true, if_false]
  refine ⟨?_, ?_, ?_, ?_, ?_⟩ <;> simp [hr, hs, hb, he]

/-- Fixture: a table processed with the backup gate, FK audit, truncate and
optimize all configured. -/
def exDumpTable : TableSpec := { name := "events", dump_before := true, check_foreign_keys := true, delete_strategy := some "truncate", run_optimize := true }

/-- Claim C2, witness at a concrete input. -/
theorem claim_C2_witness :
    exDumpTable.dump_before = true ∧
      dumpFails (exFailEnv.dumpOutcome exDumpTable.name) = true ∧
      ((process_table unitSession exFailEnv exConn "app" exDumpTable false 5
            (st0 () [])).2 = Status.ok ∧
        (process_table unitSession exFailEnv exConn "app" exDumpTable false 5
            (st0 () [])).1.results =
          (st0 () []).results ++ [headerMsg "app" exDumpTable.name,
            skipMsg exDumpTable.name] ∧
        (process_table unitSession exFailEnv exConn "app" exDumpTable false 5
            (st0 () [])).1.steps =
          (st0 () []).steps ++ [.header, .backup] ∧
        List.countP isSqlExec
            (process_table unitSession exFailEnv exConn "app" exDumpTable false 5
              (st0 () [])).1.events =
          List.countP isSqlExec (st0 () []).events ∧
        (process_table unitSession exFailEnv exConn "app" exDumpTable false 5
            (st0 () [])).1.batchLog = (st0 () []).batchLog) :=
  ⟨rfl, by decide,
    claim_C2 unitSession exFailEnv exConn "app" exDumpTable 5 (st0 () [])
      rfl (by decide)⟩

/- ## Claim C1 -/

/-- Fixture: a table with a batched `condition` delete. -/
def exCondTable : TableSpec := { name := "t1", delete_strategy := some "condition", delete_condition := some "x > 0", delete_batch_size := some 10 }

/-- Fixture: a table with no configured steps. -/
def exPlainTable : TableSpec := { name := "t2" }

/-- Fixture: a `main` oracle with one database holding the two tables above,
a successful connect, and a session that fails every DELETE statement. -/
def exMainEnv : MainEnv Unit :=
  ⟨.ok ⟨[⟨"app", [exCondTable, exPlainTable]⟩]⟩, none, errDeleteSession, (), []⟩

/-- Claim C1, counterexample: with a `condition`-strategy table `t1` whose
DELETE raises a driver error and a following table `t2`, the run does NOT
continue to the next table (`t2` is never processed: its header line is
absent from the results), no delete result line is recorded, and the error is
logged only by the Run Coordinator's top-level handler as
`Error connecting to MySQL: ...` — without the offending table name —
contradicting the claim that the error is caught, logged with the table name,
and processing continues. -/
theorem claim_C1_counterexample :
    ((mainRun exMainEnv exEnv exConn "cfg.yml" false 10).st.results.contains
        (headerMsg "app" "t2")) = false ∧
      ((mainRun exMainEnv exEnv exConn "cfg.yml" false 10).st.results.contains
        (headerMsg "app" "t1")) = true ∧
      ((mainRun exMainEnv exEnv exConn "cfg.yml" false 10).st.logs.contains
        "Error connecting to MySQL: deadlock") = true ∧
      tagCount (mainRun exMainEnv exEnv exConn "cfg.yml" false 10).st .del
        = 0 := by
  refine ⟨?_, ?_, ?_, ?_⟩ <;> decide

/-- Claim C1, amended: an execution error raised by a batched `condition` or
`older_than_days` delete is NOT caught inside the Table Processor (only the
truncate statement is wrapped in try/except): the batching loop propagates
the error, the table loop stops — the remaining tables are not processed —
and the Run Coordinator's top-level handler catches it (logging it as a
connection error, without the table name), closes the connection, and lets no
exception escape.  Three parts: the loop propagates the driver error; an
erroring table aborts the rest of the table loop; the coordinator catches the
propagated error, keeps `results` as they were, and still closes the
session. -/
theorem claim_C1 :
    (∀ (σ : Type) (D : DbSession σ) (tn cond : String) (B delay fuel : Nat)
      (st : St σ) (e : String),
      (D.exec st.db ("DELETE FROM `" ++ tn ++ "` WHERE " ++ cond ++ " LIMIT "
        ++ toString B ++ ";")).2 = .err e →
      condLoop D tn cond B delay false (fuel + 1) st =
        ((run_sql D st ("DELETE FROM `" ++ tn ++ "` WHERE " ++ cond
          ++ " LIMIT " ++ toString B ++ ";") false).1, .exc e)) ∧
    (∀ (σ : Type) (D : DbSession σ) (env : Env) (conn : ConnParams)
      (db_name : String) (t : TableSpec) (rest : List TableSpec) (dry : Bool)
      (fuel : Nat) (st st1 : St σ) (e : String),
      process_table D env conn db_name t dry fuel st = (st1, .exc e) →
      runTables D env conn db_name dry fuel (t :: rest) st = (st1, .exc e)) ∧
    (∀ (σ : Type) (E : MainEnv σ) (env : Env) (conn : ConnParams)
      (cfgpath : String) (dry : Bool) (fuel : Nat) (config : Config)
      (st1 : St σ) (e : String),
      E.configLoad = .ok config →
      E.connectErr = none →
      runDbs E.D env conn dry fuel config.databases
          (logL (logL (st0 E.initDb E.fsDirs0)
            ("Loading configuration from " ++ cfgpath))
            "Successfully connected to MySQL") = (st1, .exc e) →
      (mainRun E env conn cfgpath dry fuel).uncaught = none ∧
        (mainRun E env conn cfgpath dry fuel).closed = true ∧
        (mainRun E env conn cfgpath dry fuel).st.results = st1.results ∧
        (mainRun E env conn cfgpath dry fuel).st.logs =
          st1.logs ++ ["Error connecting to MySQL: " ++ e,
            "MySQL connection closed"]) := by
  refine ⟨?_, ?_, ?_⟩
  · intro σ D tn cond B delay fuel st e hexec
    simp only [condLoop, run_sql, logL, emit, hexec, Bool.false_eq_true,
      if_false]
  · intro σ D env conn db_name t rest dry fuel st st1 e hproc
    simp only [runTables, hproc]
  · intro σ E env conn cfgpath dry fuel config st1 e hcfg hconn hrun
    simp only [mainRun, hcfg, hconn, hrun]
    simp [logL, List.append_assoc]

/-- Claim C1, witness at a concrete input: the erroring first table aborts the
rest of the table loop. -/
theorem claim_C1_witness :
    runTables errDeleteSession exEnv exConn "app" false 10
        [exCondTable, exPlainTable] (st0 () []) =
      ((process_table errDeleteSession exEnv exConn "app" exCondTable false 10
        (st0 () [])).1, Status.exc "deadlock") :=
  claim_C1.2.1 Unit errDeleteSession exEnv exConn "app" exCondTable
    [exPlainTable] false 10 (st0 () [])
    (process_table errDeleteSession exEnv exConn "app" exCondTable false 10
      (st0 () [])).1 "deadlock" (by decide)

/- ## Claim C5 -/

/-- Fixture: a `main` oracle whose `mysql.connector.connect` raises. -/
def exConnFailEnv : MainEnv Unit :=
  ⟨.ok ⟨[]⟩, some "Access denied for user", unitSession, (), []⟩

/-- Claim C5, counterexample: when `connect` fails, the `except Error` clause
catches the connection error, but the `finally` block then evaluates
`connection.is_connected()` with `connection = None`, and the resulting
`AttributeError` escapes `main` uncaught (and no close happens) — refuting
the claim that no exception escapes the top level. -/
theorem claim_C5_counterexample :
    (mainRun exConnFailEnv exEnv exConn "cfg.yml" false 10).uncaught =
        some (.attrErr "NoneType object has no attribute is_connected") ∧
      (mainRun exConnFailEnv exEnv exConn "cfg.yml" false 10).closed
        = false := by
  constructor <;> decide

/-- Claim C5, amended: provided the configuration loads and a session is
successfully opened (`connect` does not raise), no exception escapes `main`
and the final cleanup closes the session on every completed path (driver
errors from the table loop included); when the run is still inside a
batching loop (fuel exhausted in the model), no verdict is claimed.  If the
connection was never opened, the cleanup itself raises (see the
counterexample). -/
theorem claim_C5 {σ : Type} (E : MainEnv σ) (env : Env) (conn : ConnParams)
    (cfgpath : String) (dry : Bool) (fuel : Nat) (config : Config)
    (hcfg : E.configLoad = .ok config)
    (hconn : E.connectErr = none) :
    (mainRun E env conn cfgpath dry fuel).fuelOut = true ∨
      ((mainRun E env conn cfgpath dry fuel).uncaught = none ∧
        (mainRun E env conn cfgpath dry fuel).closed = true) := by
  simp only [mainRun, hcfg, hconn]
  rcases hp : (runDbs E.D env conn dry fuel config.databases
    (logL (logL (st0 E.initDb E.fsDirs0)
      ("Loading configuration from " ++ cfgpath))
      "Successfully connected to MySQL")).2 with _ | e | _ <;>
    simp [hp]

/-- Fixture: a `main` oracle with a successful connect and trivial work. -/
def exOkMainEnv : MainEnv Unit :=
  ⟨.ok ⟨[⟨"app", [exPlainTable]⟩]⟩, none, unitSession, (), []⟩

/-- Claim C5, witness at a concrete input. -/
theorem claim_C5_witness :
    (mainRun exOkMainEnv exEnv exConn "cfg.yml" false 10).fuelOut = true ∨
      ((mainRun exOkMainEnv exEnv exConn "cfg.yml" false 10).uncaught = none ∧
        (mainRun exOkMainEnv exEnv exConn "cfg.yml" false 10).closed = true) :=
  claim_C5 exOkMainEnv exEnv exConn "cfg.yml" false 10 ⟨[⟨"app", [exPlainTable]⟩]⟩
    rfl rfl

/- ## Statement-classification lemmas -/

theorem startsWithL_append_false {p x : List Char}
    (hx : startsWithL x p = false) (hlen : p.length ≤ x.length)
    (y : List Char) : startsWithL (x ++ y) p = false := by
  induction p generalizing x with
  | nil => simp [startsWithL] at hx
  | cons b bs ih =>
    cases x with
    | nil => simp at hlen
    | cons a as =>
      simp only [startsWithL, Bool.and_eq_false_iff] at hx
      simp only [List.cons_append, startsWithL, Bool.and_eq_false_iff]
      rcases hx with hx | hx
      · exact Or.inl hx
      · refine Or.inr (ih hx ?_)
        simp only [List.length_cons] at hlen
        omega

theorem commit_not_delete : isDeleteExec .commit = false := rfl

theorem sleep_not_delete (n : Nat) : isDeleteExec (.sleep n) = false := rfl

/-- The foreign-key catalog query is not a DELETE statement. -/
theorem fkQuery_not_delete (dbn tn : String) :
    isDeleteExec (.sqlExec (fkQuery dbn tn)) = false := by
  unfold isDeleteExec fkQuery
  simp only [toList_append, List.append_assoc]
  exact startsWithL_append_false (by decide) (by decide) _

/-- The OPTIMIZE statement is not a DELETE statement. -/
theorem optimize_not_delete (tn : String) :
    isDeleteExec (.sqlExec ("OPTIMIZE TABLE `" ++ tn ++ "`;")) = false := by
  unfold isDeleteExec
  simp only [toList_append, List.append_assoc]
  exact startsWithL_append_false (by decide) (by decide) _

/-- The TRUNCATE statement is not a DELETE statement. -/
theorem truncate_not_delete (tn : String) :
    isDeleteExec (.sqlExec ("TRUNCATE TABLE `" ++ tn ++ "`;")) = false := by
  unfold isDeleteExec
  simp only [toList_append, List.append_assoc]
  exact startsWithL_append_false (by decide) (by decide) _

/-- The USE statement is not a DELETE statement. -/
theorem use_not_delete (dbn : String) :
    isDeleteExec (.sqlExec (useStmt dbn)) = false := by
  show startsWithL ("USE `" ++ dbn ++ "`;").toList
    ['D', 'E', 'L', 'E', 'T', 'E'] = false
  rw [toList_append, toList_append]
  rw [show ("USE `" : String).toList = 'U' :: ['S', 'E', ' ', '`'] from rfl]
  simp [startsWithL]

/- ## Frame lemmas for the sections -/

theorem fkSection_spec {σ : Type} (D : DbSession σ) (dbn tn : String)
    (st : St σ) :
    (fkSection D dbn tn st).batchLog = st.batchLog ∧
      (fkSection D dbn tn st).steps = st.steps ++ [.fk] ∧
      (fkSection D dbn tn st).results.length = st.results.length + 1 ∧
      List.countP isDeleteExec (fkSection D dbn tn st).events =
        List.countP isDeleteExec st.events := by
  unfold fkSection check_foreign_keys
  cases hx : (D.exec st.db (fkQuery dbn tn)).2 with
  | ok rc rows =>
    simp only [hx, logL, emit]
    split <;> simp [resLog, List.countP_append, fkQuery_not_delete]
  | err e =>
    simp only [hx, logL, emit]
    simp [resLog, List.countP_append, fkQuery_not_delete]

theorem optimizeSection_spec {σ : Type} (D : DbSession σ) (tn : String)
    (dry : Bool) (st : St σ) :
    (optimizeSection D tn dry st).batchLog = st.batchLog ∧
      (optimizeSection D tn dry st).steps = st.steps ++ [.opt] ∧
      (optimizeSection D tn dry st).results.length = st.results.length + 1 ∧
      List.countP isDeleteExec (optimizeSection D tn dry st).events =
        List.countP isDeleteExec st.events := by
  unfold optimizeSection run_sql
  cases dry with
  | true => simp [resLog, logL]
  | false =>
    cases hx : (D.exec st.db ("OPTIMIZE TABLE `" ++ tn ++ "`;")).2 with
    | ok rc rows =>
      simp [hx, resLog, logL, emit, List.countP_append, optimize_not_delete,
        commit_not_delete]
    | err e =>
      simp [hx, resLog, logL, emit, List.countP_append, optimize_not_delete,
        commit_not_delete]

/- ## Batching arithmetic (claim C4) -/

/-- Characterization of the `older_than_days` batching loop against a table
with `st.db` matching rows and no concurrent writers (`rowsSession`): with
enough fuel it returns normally and the per-batch affected counts are
`st.db / B` full batches of `B` followed by one terminal batch of
`st.db % B`. -/
theorem olderLoop_rows (B : Nat) (hB : 0 < B) (tn cond : String)
    (delay : Nat) :
    ∀ (fuel : Nat) (st : St Nat), st.db / B + 1 ≤ fuel →
      (olderLoop (rowsSession B) tn cond B delay false fuel st).2 =
          Status.ok ∧
        (olderLoop (rowsSession B) tn cond B delay false fuel st).1.batchLog =
          st.batchLog ++ (List.replicate (st.db / B) B ++ [st.db % B]) := by
  intro fuel
  induction fuel with
  | zero =>
    intro st hf
    exact absurd hf (Nat.not_succ_le_zero _)
  | succ f ih =>
    intro st hf
    by_cases hlt : st.db < B
    · have h0 : st.db / B = 0 := Nat.div_eq_of_lt hlt
      have h1 : st.db % B = st.db := Nat.mod_eq_of_lt hlt
      have hmin : min st.db B = st.db := Nat.min_eq_left (le_of_lt hlt)
      simp [olderLoop, run_sql, rowsSession, logL, emit, resLog, recordBatch,
        hmin, hlt, h0, h1]
    · push_neg at hlt
      have hmin : min st.db B = B := Nat.min_eq_right hlt
      have hdiv : st.db / B = (st.db - B) / B + 1 := Nat.div_eq_sub_div hB hlt
      have hmod : st.db % B = (st.db - B) % B := Nat.mod_eq_sub_mod hlt
      have hf2 : (st.db - B) / B + 1 ≤ f := by
        rw [hdiv] at hf
        exact Nat.add_le_add_iff_right.mp hf
      simp only [olderLoop, run_sql, rowsSession, logL, emit, resLog,
        recordBatch, Bool.not_false, if_true, Bool.and_true, hmin,
        lt_irrefl, if_false, Bool.false_eq_true]
      by_cases hd : (delay != 0) = true <;>
        simp only [hd, Bool.false_eq_true, if_true, if_false] <;>
        · constructor
          · refine (ih _ ?_).1
            show (st.db - B) / B + 1 ≤ f
            exact hf2
          · refine ((ih _ ?_).2).trans ?_
            · exact hf2
            · show st.batchLog ++ [B] ++
                (List.replicate ((st.db - B) / B) B ++ [(st.db - B) % B]) = _
              rw [hdiv, hmod, List.replicate_succ]
              simp [List.append_assoc]

/-- For `B` not dividing `K`, `⌈K/B⌉ = K/B + 1` (with `⌈K/B⌉ = (K+B-1)/B`). -/
theorem ceil_of_not_dvd {K B : Nat} (hB : 0 < B) (hnd : ¬ B ∣ K) :
    (K + B - 1) / B = K / B + 1 := by
  have hK : 1 ≤ K := by
    rcases Nat.eq_zero_or_pos K with h | h
    · subst h
      exact absurd (Nat.dvd_zero B) hnd
    · exact h
  have h1 : K + B - 1 = (K - 1) + B := by omega
  rw [h1, Nat.add_div_right _ hB]
  have h2 : K - 1 + 1 = K := by omega
  have h3 : K / B = (K - 1) / B := by
    conv_lhs => rw [← h2]
    rw [Nat.succ_div, h2]
    simp [hnd]
  rw [h3]

/-- Claim C4, confirmed: in real mode, for a table with exactly `st.db = K`
matching rows (the `rowsSession` model, no concurrent writers), batch size
`B > 0` and the `older_than_days` strategy, `process_table` returns normally
and issues batches affecting `B, …, B, K % B`: `K / B` full batches plus one
terminal batch of `K % B < B`.  Hence the batch count is `⌈K/B⌉ = (K+B-1)/B`
when `B ∤ K`, and `K/B + 1` (one extra zero-affected terminal batch) when
`B ∣ K`; the final reported count is always `K % B`. -/
theorem claim_C4 (env : Env) (conn : ConnParams) (db_name : String)
    (t : TableSpec) (N B fuel : Nat) (st : St Nat)
    (h1 : t.delete_strategy = some "older_than_days")
    (h2 : t.delete_older_than_days = some N)
    (h3 : t.delete_batch_size = some B)
    (hB : 0 < B)
    (h4 : t.dump_before = false)
    (h5 : t.check_foreign_keys = false)
    (h6 : t.run_optimize = false)
    (hf : st.db / B + 1 ≤ fuel) :
    (process_table (rowsSession B) env conn db_name t false fuel st).2 =
        Status.ok ∧
      (process_table (rowsSession B) env conn db_name t false fuel
          st).1.batchLog =
        st.batchLog ++ (List.replicate (st.db / B) B ++ [st.db % B]) ∧
      st.db % B < B ∧
      (¬ B ∣ st.db →
        (process_table (rowsSession B) env conn db_name t false fuel
            st).1.batchLog.length =
          st.batchLog.length + (st.db + B - 1) / B) ∧
      (B ∣ st.db →
        (process_table (rowsSession B) env conn db_name t false fuel
            st).1.batchLog.length =
          st.batchLog.length + (st.db / B + 1) ∧ st.db % B = 0) ∧
      (process_table (rowsSession B) env conn db_name t false fuel
        st).1.batchLog.getLast? = some (st.db % B) := by
  have hswT : (pyLower "older_than_days" == "truncate") = false := by decide
  have hswC : (pyLower "older_than_days" == "condition") = false := by decide
  have hswO : ("older_than_days" == "older_than_days") = true := by decide
  have hbne : (B != 0) = true := by
    simp [Nat.pos_iff_ne_zero.mp hB]
  obtain ⟨hs, hb⟩ := olderLoop_rows B hB t.name
    (olderCondition (t.date_column.getD "date") env.today N)
    t.delete_batch_delay fuel
    (logL (resLog st .header
      ("Processing table `" ++ db_name ++ "`.`" ++ t.name ++ "`"))
      ("Deleting in batches of " ++ toString B ++ " with "
        ++ toString t.delete_batch_delay ++ "s delay"))
    (by exact hf)
  simp only [process_table, afterGate, deleteSection, olderCondition, h1, h2,
    h3, h4, h5, h6, hswT, hswC, hswO, Bool.false_eq_true, if_false, if_true,
    Option.getD_some, hbne, logL, resLog] at hs hb ⊢
  simp only [hs, hb]
  refine ⟨by simp, by simp, Nat.mod_lt _ hB, ?_, ?_, ?_⟩
  · intro hnd
    rw [ceil_of_not_dvd hB hnd]
    simp
  · intro hdvd
    exact ⟨by simp, Nat.mod_eq_zero_of_dvd hdvd⟩
  · rw [← List.append_assoc]
    exact List.getLast?_concat _

/-- Fixture: the `older_than_days` table of the batching claims. -/
def exOlderTable : TableSpec := { name := "events", delete_strategy := some "older_than_days", delete_older_than_days := some 7, delete_batch_size := some 2 }

/-- Claim C4, witness at a concrete input (`K = 5`, `B = 2`). -/
theorem claim_C4_witness :
    (process_table (rowsSession 2) exEnv exConn "app" exOlderTable false 10
        (st0 5 [])).2 = Status.ok ∧
      (process_table (rowsSession 2) exEnv exConn "app" exOlderTable false 10
          (st0 5 [])).1.batchLog =
        (st0 5 []).batchLog ++
          (List.replicate ((st0 5 []).db / 2) 2 ++ [(st0 5 []).db % 2]) ∧
      (st0 5 []).db % 2 < 2 ∧
      (¬ 2 ∣ (st0 5 []).db →
        (process_table (rowsSession 2) exEnv exConn "app" exOlderTable false 10
            (st0 5 [])).1.batchLog.length =
          (st0 5 []).batchLog.length + ((st0 5 []).db + 2 - 1) / 2) ∧
      (2 ∣ (st0 5 []).db →
        (process_table (rowsSession 2) exEnv exConn "app" exOlderTable false 10
            (st0 5 [])).1.batchLog.length =
          (st0 5 []).batchLog.length + ((st0 5 []).db / 2 + 1) ∧
          (st0 5 []).db % 2 = 0) ∧
      (process_table (rowsSession 2) exEnv exConn "app" exOlderTable false 10
        (st0 5 [])).1.batchLog.getLast? = some ((st0 5 []).db % 2) :=
  claim_C4 exEnv exConn "app" exOlderTable 7 2 10 (st0 5 []) rfl rfl rfl
    (by decide) rfl rfl rfl (by decide)

/- ## Claim C7 -/

/-- In dry-run mode the `condition` batching loop stops after exactly one
iteration: the affected count is reported as 0, no statement is sent, one
result line is appended. -/
theorem condLoop_dry {σ : Type} (D : DbSession σ) (tn cond : String)
    (B delay fuel : Nat) (hB : 0 < B) (st : St σ) :
    (condLoop D tn cond B delay true (fuel + 1) st).2 = Status.ok ∧
      (condLoop D tn cond B delay true (fuel + 1) st).1.batchLog =
        st.batchLog ++ [0] ∧
      (condLoop D tn cond B delay true (fuel + 1) st).1.events = st.events ∧
      (condLoop D tn cond B delay true (fuel + 1) st).1.results =
        st.results ++ ["Batch deleted 0 rows from " ++ tn] ∧
      (condLoop D tn cond B delay true (fuel + 1) st).1.steps =
        st.steps ++ [.del] := by
  have h0 : toString (0 : Nat) = "0" := by decide
  simp [condLoop, run_sql, logL, emit, resLog, recordBatch, hB, h0]

/-- In dry-run mode the `older_than_days` batching loop stops after exactly
one iteration with affected count 0. -/
theorem olderLoop_dry {σ : Type} (D : DbSession σ) (tn cond : String)
    (B delay fuel : Nat) (hB : 0 < B) (st : St σ) :
    (olderLoop D tn cond B delay true (fuel + 1) st).2 = Status.ok ∧
      (olderLoop D tn cond B delay true (fuel + 1) st).1.batchLog =
        st.batchLog ++ [0] ∧
      (olderLoop D tn cond B delay true (fuel + 1) st).1.events = st.events ∧
      (olderLoop D tn cond B delay true (fuel + 1) st).1.results =
        st.results ++ ["Batch deleted 0 rows from `" ++ tn ++ "`"] ∧
      (olderLoop D tn cond B delay true (fuel + 1) st).1.steps =
        st.steps ++ [.del] := by
  have h0 : toString (0 : Nat) = "0" := by decide
  simp [olderLoop, run_sql, logL, emit, resLog, recordBatch, hB, h0]

/-- Claim C7, confirmed: for a batched delete strategy (`condition` with a
nonempty predicate, or `older_than_days` with a day count) with batch size
`B > 0`, the dry-run Batched Deletion Engine terminates after exactly one
simulated batch whose affected count is reported as 0, sending no statement
to the session. -/
theorem claim_C7 {σ : Type} (D : DbSession σ) (env : Env) (t : TableSpec)
    (B fuel : Nat) (st : St σ)
    (hb : t.delete_batch_size = some B)
    (hB : 0 < B)
    (hf : 1 ≤ fuel)
    (hs : (∃ s cond, t.delete_strategy = some s ∧ pyLower s = "condition" ∧
        t.delete_condition = some cond ∧ cond ≠ "") ∨
      (t.delete_strategy = some "older_than_days" ∧
        ∃ N, t.delete_older_than_days = some N)) :
    (deleteSection D env t true fuel st).2 = Status.ok ∧
      (deleteSection D env t true fuel st).1.batchLog =
        st.batchLog ++ [0] ∧
      (deleteSection D env t true fuel st).1.events = st.events ∧
      (deleteSection D env t true fuel st).1.results.length =
        st.results.length + 1 := by
  obtain ⟨f, rfl⟩ : ∃ f, fuel = f + 1 := ⟨fuel - 1, by omega⟩
  have hbne : (B != 0) = true := by
    simp [Nat.pos_iff_ne_zero.mp hB]
  rcases hs with ⟨s, cond, h1, h2, h3, h4⟩ | ⟨h1, N, h2⟩
  · have hT : (pyLower s == "truncate") = false := by
      rw [h2]
      decide
    have hC : (pyLower s == "condition") = true := by
      rw [h2]
      decide
    have hcne : (cond == "") = false := beq_eq_false_iff_ne.mpr h4
    obtain ⟨c1, c2, c3, c4, c5⟩ := condLoop_dry D t.name cond B
      t.delete_batch_delay f hB (logL st ("Condition delete in batches of "
        ++ toString B ++ ", delay " ++ toString t.delete_batch_delay))
    have hB0 : ¬ (B = 0) := by omega
    simp only [deleteSection, h1, h3, hb, hT, hC, hcne, hbne, hB0,
      Option.getD_some, Bool.false_eq_true, if_false, if_true, logL]
      at c1 c2 c3 c4 c5 ⊢
    simp [c1, c2, c3, c4]
  · have hT : (pyLower "older_than_days" == "truncate") = false := by decide
    have hC : (pyLower "older_than_days" == "condition") = false := by decide
    obtain ⟨c1, c2, c3, c4, c5⟩ := olderLoop_dry D t.name
      (olderCondition (t.date_column.getD "date") env.today N) B
      t.delete_batch_delay f hB (logL st ("Deleting in batches of "
        ++ toString B ++ " with " ++ toString t.delete_batch_delay
        ++ "s delay"))
    have hB0 : ¬ (B = 0) := by omega
    simp only [deleteSection, olderCondition, h1, h2, hb, hT, hC, hbne, hB0,
      Option.getD_some, Bool.false_eq_true, if_false, if_true, logL]
      at c1 c2 c3 c4 c5 ⊢
    simp [c1, c2, c3, c4]

/-- Claim C7, witness at a concrete input. -/
theorem claim_C7_witness :
    (deleteSection unitSession exEnv exOlderTable true 5 (st0 () [])).2 =
        Status.ok ∧
      (deleteSection unitSession exEnv exOlderTable true 5
          (st0 () [])).1.batchLog = (st0 () []).batchLog ++ [0] ∧
      (deleteSection unitSession exEnv exOlderTable true 5
          (st0 () [])).1.events = (st0 () []).events ∧
      (deleteSection unitSession exEnv exOlderTable true 5
          (st0 () [])).1.results.length = (st0 () []).results.length + 1 :=
  claim_C7 unitSession exEnv exOlderTable 2 5 (st0 () []) rfl (by decide)
    (by decide) (Or.inr ⟨rfl, 7, rfl⟩)

/- ## Claim C8 -/

/-- Model of the SQL evaluation of the generated comparison `value < 'thresh'`
on ISO-formatted dates: lexicographic (= chronological on `yyyy-MM-dd`)
strict less-than. -/
def sqlDateLt (a b : String) : Bool := decide (a < b)

/-- Claim C8, confirmed: for strategy `older_than_days` with day count `N`,
the generated WHERE predicate is exactly
`{date_column or "date"} < '{today - N days, ISO}'`: the date column defaults
to `date`; the threshold is rendered `yyyy-MM-dd`; the comparison is strict,
so a row whose date equals the threshold does not match; and the DELETE
statement sent to the session embeds exactly this predicate. -/
theorem claim_C8 {σ : Type} (D : DbSession σ) (env : Env) (conn : ConnParams)
    (db_name : String) (t : TableSpec) (N fuel : Nat) (st : St σ)
    (h1 : t.delete_strategy = some "older_than_days")
    (h2 : t.delete_older_than_days = some N)
    (h3 : t.delete_batch_size = none)
    (h4 : t.dump_before = false)
    (h5 : t.check_foreign_keys = false)
    (h6 : t.run_optimize = false)
    (hv : validDate env.today) :
    olderCondition (t.date_column.getD "date") env.today N =
        (t.date_column.getD "date") ++ " < \x27"
          ++ dateToISO (subDays env.today N) ++ "\x27" ∧
      (t.date_column = none →
        olderCondition (t.date_column.getD "date") env.today N =
          "date" ++ " < \x27" ++ dateToISO (subDays env.today N) ++ "\x27") ∧
      isoShape (dateToISO (subDays env.today N)) ∧
      sqlDateLt (dateToISO (subDays env.today N))
        (dateToISO (subDays env.today N)) = false ∧
      ((process_table D env conn db_name t false fuel st).1.events.drop
          st.events.length).head? =
        some (.sqlExec ("DELETE FROM `" ++ t.name ++ "` WHERE "
          ++ olderCondition (t.date_column.getD "date") env.today N ++ ";")) := by
  refine ⟨rfl, ?_, ?_, ?_, ?_⟩
  · intro hdc
    rw [hdc]
    rfl
  · exact dateToISO_isoShape (validDate_subDays hv N)
  · simp [sqlDateLt]
  · have hT : (pyLower "older_than_days" == "truncate") = false := by decide
    have hC : (pyLower "older_than_days" == "condition") = false := by decide
    simp only [process_table, afterGate, deleteSection, h1, h2, h3, h4, h5,
      h6, hT, hC, Bool.false_eq_true, if_false, if_true, Option.getD_none,
      run_sql, logL, emit, resLog]
    cases hx : (D.exec st.db ("DELETE FROM `" ++ t.name ++ "` WHERE "
        ++ olderCondition (t.date_column.getD "date") env.today N ++ ";")).2 with
    | ok rc rows =>
      simp [hx, List.drop_left, olderCondition]
    | err e =>
      simp [hx, List.drop_left, olderCondition]

/-- Fixture: the `created_at` age-threshold table (no batch size). -/
def exOlderSingleTable : TableSpec := { name := "events", delete_strategy := some "older_than_days", delete_older_than_days := some 30, date_column := some "created_at" }

/-- Claim C8, witness at a concrete input. -/
theorem claim_C8_witness :
    olderCondition (exOlderSingleTable.date_column.getD "date") exEnv.today 30 =
        (exOlderSingleTable.date_column.getD "date") ++ " < \x27"
          ++ dateToISO (subDays exEnv.today 30) ++ "\x27" ∧
      (exOlderSingleTable.date_column = none →
        olderCondition (exOlderSingleTable.date_column.getD "date")
            exEnv.today 30 =
          "date" ++ " < \x27" ++ dateToISO (subDays exEnv.today 30)
            ++ "\x27") ∧
      isoShape (dateToISO (subDays exEnv.today 30)) ∧
      sqlDateLt (dateToISO (subDays exEnv.today 30))
        (dateToISO (subDays exEnv.today 30)) = false ∧
      ((process_table unitSession exEnv exConn "app" exOlderSingleTable false 5
          (st0 () [])).1.events.drop (st0 () []).events.length).head? =
        some (.sqlExec ("DELETE FROM `" ++ exOlderSingleTable.name
          ++ "` WHERE "
          ++ olderCondition (exOlderSingleTable.date_column.getD "date")
            exEnv.today 30 ++ ";")) :=
  claim_C8 unitSession exEnv exConn "app" exOlderSingleTable 30 5 (st0 () [])
    rfl rfl rfl rfl rfl rfl (by refine ⟨?_, ?_, ?_, ?_, ?_⟩ <;> decide)

/- ## Claim C9 -/

theorem hasSubL_append_right_of (x : List Char) {y p : List Char}
    (h : hasSubL y p = true) : hasSubL (x ++ y) p = true := by
  induction x with
  | nil => simpa using h
  | cons a as ih => exact hasSubL_cons_of ih a

/-- The credential argument `-p<password>` occurs in the joined dump
command. -/
theorem password_in_join (conn : ConnParams) (db_name table_name : String) :
    hasSub (joinSpace (dump_args conn db_name table_name))
      ("-p" ++ conn.password) = true := by
  show hasSubL (joinSpace (dump_args conn db_name table_name)).toList
    ("-p" ++ conn.password).toList = true
  simp only [dump_args, joinSpace, toList_append, List.append_assoc,
    show ("-p" : String).toList = ['-', 'p'] from rfl, List.cons_append,
    List.nil_append]
  repeat apply hasSubL_append_right_of
  apply hasSubL_of_startsWithL
  simp only [startsWithL, beq_self_eq_true, Bool.true_and]
  exact startsWithL_append conn.password.toList _

/-- The fixed placeholder appears in the masked dump command. -/
theorem placeholder_in_masked (conn : ConnParams) (db_name table_name : String) :
    hasSub (masked_dump conn db_name table_name) "-p****" = true := by
  have hp : ("-p" ++ conn.password).toList ≠ [] := by
    rw [toList_append]
    simp [show ("-p" : String).toList = ['-', 'p'] from rfl]
  exact hasSubL_replaceL_rep _ _ hp _
    (password_in_join conn db_name table_name)

/-- Claim C9, counterexample: with `user = password = "hunter2"`, the single
log line of a dry-run `dump_table` — the masked command — still contains the
raw password string (as the `-u` argument), because masking only replaces the
substring `-p<password>`.  The line is otherwise properly masked. -/
theorem claim_C9_counterexample :
    (dump_table "app" "events" ⟨"db", "hunter2", "hunter2", "mysqldump"⟩
        "local" "." true exEnv (st0 () ["."])).1.logs =
      ["[DRY RUN] Would execute dump command: "
        ++ "mysqldump -h db -u hunter2 -p**** app events"] ∧
    ((dump_table "app" "events" ⟨"db", "hunter2", "hunter2", "mysqldump"⟩
        "local" "." true exEnv (st0 () ["."])).1.logs.any
      (fun l => hasSub l "hunter2")) = true := by
  constructor <;> decide

/-- Claim C9, amended: every logged representation of the dump command is the
argument join with every occurrence of the substring `-p<password>` replaced
by the fixed placeholder `-p****` (so the credential argument never appears
verbatim, and the placeholder does appear); but the raw password string can
still appear in a log line when it occurs inside another component of the
command (for instance when the user name equals the password — see the
counterexample). -/
theorem claim_C9 {σ : Type} (db_name table_name : String) (conn : ConnParams)
    (storage path : String) (env : Env) (st : St σ) :
    (dump_table db_name table_name conn storage path true env st).1.logs =
        st.logs ++ ("[DRY RUN] Would execute dump command: "
            ++ masked_dump conn db_name table_name) ::
          (if pyLower storage == "s3" then
            ["[DRY RUN] Would execute S3 upload to: " ++ env.aws_bucket]
          else []) ∧
      masked_dump conn db_name table_name =
        pyReplace (joinSpace (dump_args conn db_name table_name))
          ("-p" ++ conn.password) "-p****" ∧
      hasSub (masked_dump conn db_name table_name) "-p****" = true := by
  refine ⟨?_, rfl, placeholder_in_masked conn db_name table_name⟩
  exact (dump_table_dry db_name table_name conn storage path env st).2.2.1

/- ## Claim C10 -/

theorem fkSection_batchLog {σ : Type} (D : DbSession σ) (dbn tn : String)
    (st : St σ) : (fkSection D dbn tn st).batchLog = st.batchLog :=
  (fkSection_spec D dbn tn st).1

theorem fkSection_steps {σ : Type} (D : DbSession σ) (dbn tn : String)
    (st : St σ) : (fkSection D dbn tn st).steps = st.steps ++ [.fk] :=
  (fkSection_spec D dbn tn st).2.1

theorem fkSection_results_len {σ : Type} (D : DbSession σ) (dbn tn : String)
    (st : St σ) :
    (fkSection D dbn tn st).results.length = st.results.length + 1 :=
  (fkSection_spec D dbn tn st).2.2.1

theorem fkSection_events_del {σ : Type} (D : DbSession σ) (dbn tn : String)
    (st : St σ) :
    List.countP isDeleteExec (fkSection D dbn tn st).events =
      List.countP isDeleteExec st.events :=
  (fkSection_spec D dbn tn st).2.2.2

theorem optimizeSection_batchLog {σ : Type} (D : DbSession σ) (tn : String)
    (dry : Bool) (st : St σ) :
    (optimizeSection D tn dry st).batchLog = st.batchLog :=
  (optimizeSection_spec D tn dry st).1

theorem optimizeSection_steps {σ : Type} (D : DbSession σ) (tn : String)
    (dry : Bool) (st : St σ) :
    (optimizeSection D tn dry st).steps = st.steps ++ [.opt] :=
  (optimizeSection_spec D tn dry st).2.1

theorem optimizeSection_results_len {σ : Type} (D : DbSession σ) (tn : String)
    (dry : Bool) (st : St σ) :
    (optimizeSection D tn dry st).results.length = st.results.length + 1 :=
  (optimizeSection_spec D tn dry st).2.2.1

theorem optimizeSection_events_del {σ : Type} (D : DbSession σ) (tn : String)
    (dry : Bool) (st : St σ) :
    List.countP isDeleteExec (optimizeSection D tn dry st).events =
      List.countP isDeleteExec st.events :=
  (optimizeSection_spec D tn dry st).2.2.2

theorem dump_table_results_eq {σ : Type} (db_name table_name : String)
    (conn : ConnParams) (storage path : String) (dry_run : Bool) (env : Env)
    (st : St σ) :
    (dump_table db_name table_name conn storage path dry_run env st).1.results
      = st.results :=
  (dump_table_frame db_name table_name conn storage path dry_run env st).1

theorem dump_table_steps_eq {σ : Type} (db_name table_name : String)
    (conn : ConnParams) (storage path : String) (dry_run : Bool) (env : Env)
    (st : St σ) :
    (dump_table db_name table_name conn storage path dry_run env st).1.steps
      = st.steps :=
  (dump_table_frame db_name table_name conn storage path dry_run env st).2.1

theorem dump_table_batchLog_eq {σ : Type} (db_name table_name : String)
    (conn : ConnParams) (storage path : String) (dry_run : Bool) (env : Env)
    (st : St σ) :
    (dump_table db_name table_name conn storage path dry_run env st).1.batchLog
      = st.batchLog :=
  (dump_table_frame db_name table_name conn storage path dry_run env st).2.2.1

theorem dump_table_events_del {σ : Type} (db_name table_name : String)
    (conn : ConnParams) (storage path : String) (dry_run : Bool) (env : Env)
    (st : St σ) :
    List.countP isDeleteExec
        (dump_table db_name table_name conn storage path dry_run env st).1.events
      = List.countP isDeleteExec st.events :=
  (dump_table_frame db_name table_name conn storage path dry_run
    env st).2.2.2.2.2.2

/-- A strategy string that matches none of the three dispatch tests leaves the
delete section as a no-op. -/
theorem deleteSection_noop {σ : Type} (D : DbSession σ) (env : Env)
    (t : TableSpec) (dry : Bool) (fuel : Nat) (st : St σ) (s : String)
    (h1 : t.delete_strategy = some s)
    (h2 : (pyLower s == "truncate") = false)
    (h3 : (pyLower s == "condition") = false)
    (h4 : (s == "older_than_days") = false) :
    deleteSection D env t dry fuel st = (st, .ok) := by
  simp [deleteSection, h1, h2, h3, h4]

/-- Claim C10, confirmed: the delete-strategy dispatch lowercases the strategy
for `truncate` and `condition` but compares `older_than_days` verbatim, so a
spec whose strategy differs from `older_than_days` only in letter case falls
through every branch: `process_table` returns normally, no delete result line
is appended, no batch runs, and no DELETE statement is sent. -/
theorem claim_C10 {σ : Type} (D : DbSession σ) (env : Env) (conn : ConnParams)
    (db_name : String) (t : TableSpec) (dry : Bool) (fuel : Nat) (st : St σ)
    (s : String)
    (h1 : t.delete_strategy = some s)
    (h2 : s ≠ "older_than_days")
    (h3 : pyLower s = "older_than_days") :
    (process_table D env conn db_name t dry fuel st).2 = Status.ok ∧
      tagCount (process_table D env conn db_name t dry fuel st).1 .del =
        tagCount st .del ∧
      (process_table D env conn db_name t dry fuel st).1.batchLog =
        st.batchLog ∧
      List.countP isDeleteExec
          (process_table D env conn db_name t dry fuel st).1.events =
        List.countP isDeleteExec st.events := by
  have hT : (pyLower s == "truncate") = false := by
    rw [h3]
    decide
  have hC : (pyLower s == "condition") = false := by
    rw [h3]
    decide
  have hO : (s == "older_than_days") = false := beq_eq_false_iff_ne.mpr h2
  have hb1 : (StepTag.header == StepTag.del) = false := by decide
  have hb2 : (StepTag.backup == StepTag.del) = false := by decide
  have hb3 : (StepTag.fk == StepTag.del) = false := by decide
  have hb4 : (StepTag.opt == StepTag.del) = false := by decide
  have hnoop : ∀ (st' : St σ), deleteSection D env t dry fuel st' = (st', .ok) :=
    fun st' => deleteSection_noop D env t dry fuel st' s h1 hT hC hO
  simp only [process_table, afterGate, hnoop]
  cases hd : t.dump_before with
  | false =>
    cases hfk : t.check_foreign_keys <;> cases hro : t.run_optimize <;>
      simp [tagCount, resLog, List.countP_append, hb1, hb2, hb3, hb4,
        fkSection_batchLog, fkSection_steps, fkSection_events_del,
        optimizeSection_batchLog, optimizeSection_steps,
        optimizeSection_events_del]
  | true =>
    simp only [if_true]
    split
    · cases hro : t.run_optimize <;>
        simp [tagCount, resLog, List.countP_append, hb1, hb2, hb3, hb4,
          dump_table_steps_eq, dump_table_batchLog_eq, dump_table_events_del]
    · cases hfk : t.check_foreign_keys <;> cases hro : t.run_optimize <;>
        simp [tagCount, resLog, List.countP_append, hb1, hb2, hb3, hb4,
          fkSection_batchLog, fkSection_steps, fkSection_events_del,
          optimizeSection_batchLog, optimizeSection_steps,
          optimizeSection_events_del, dump_table_steps_eq,
          dump_table_batchLog_eq, dump_table_events_del]

/-- Fixture: a table whose strategy differs from `older_than_days` only in
case. -/
def exCaseTable : TableSpec := { name := "logs", delete_strategy := some "OLDER_THAN_DAYS", delete_older_than_days := some 7, delete_batch_size := some 10 }

/-- Claim C10, witness at a concrete input. -/
theorem claim_C10_witness :
    (process_table unitSession exEnv exConn "app" exCaseTable false 5
        (st0 () [])).2 = Status.ok ∧
      tagCount (process_table unitSession exEnv exConn "app" exCaseTable false 5
          (st0 () [])).1 .del = tagCount (st0 () []) .del ∧
      (process_table unitSession exEnv exConn "app" exCaseTable false 5
          (st0 () [])).1.batchLog = (st0 () []).batchLog ∧
      List.countP isDeleteExec
          (process_table unitSession exEnv exConn "app" exCaseTable false 5
            (st0 () [])).1.events =
        List.countP isDeleteExec (st0 () []).events :=
  claim_C10 unitSession exEnv exConn "app" exCaseTable false 5 (st0 () [])
    "OLDER_THAN_DAYS" rfl (by decide) (by decide)

/- ## Claim C6 -/

theorem run_sql_steps {σ : Type} (D : DbSession σ) (st : St σ) (sql : String)
    (dry : Bool) : (run_sql D st sql dry).1.steps = st.steps := by
  unfold run_sql
  cases dry with
  | true => simp [logL]
  | false =>
    cases hx : (D.exec st.db sql).2 with
    | ok rc rows => simp [hx, logL, emit]
    | err e => simp [hx, logL, emit]

theorem run_sql_results {σ : Type} (D : DbSession σ) (st : St σ) (sql : String)
    (dry : Bool) : (run_sql D st sql dry).1.results = st.results := by
  unfold run_sql
  cases dry with
  | true => simp [logL]
  | false =>
    cases hx : (D.exec st.db sql).2 with
    | ok rc rows => simp [hx, logL, emit]
    | err e => simp [hx, logL, emit]

/-- A small helper: a Bool that is not `true` is `false`. -/
theorem bool_eq_false_of_not {b : Bool} (h : ¬ (b = true)) : b = false := by
  cases b
  · rfl
  · exact absurd rfl h

/-- The `condition` batching loop only ever appends delete-step result lines,
and appends at least one when it returns normally. -/
theorem condLoop_steps {σ : Type} (D : DbSession σ) (tn cond : String)
    (B delay : Nat) (dry : Bool) :
    ∀ (fuel : Nat) (st : St σ), ∃ k,
      (condLoop D tn cond B delay dry fuel st).1.steps =
        st.steps ++ List.replicate k StepTag.del ∧
      ((condLoop D tn cond B delay dry fuel st).2 = Status.ok → 1 ≤ k) := by
  intro fuel
  induction fuel with
  | zero =>
    intro st
    exact ⟨0, by simp [condLoop], by simp [condLoop]⟩
  | succ f ih =>
    intro st
    have hps := run_sql_steps D st ("DELETE FROM `" ++ tn ++ "` WHERE "
      ++ cond ++ " LIMIT " ++ toString B ++ ";") dry
    simp only [condLoop]
    cases hp : (run_sql D st ("DELETE FROM `" ++ tn ++ "` WHERE " ++ cond
        ++ " LIMIT " ++ toString B ++ ";") dry).2 with
    | error e =>
      exact ⟨0, by simp [hps], by simp⟩
    | ok v =>
      generalize hg : (run_sql D st ("DELETE FROM `" ++ tn ++ "` WHERE "
        ++ cond ++ " LIMIT " ++ toString B ++ ";") dry).1 = p1
      rw [hg] at hps
      by_cases hlt : (if (!dry) = true then p1.rowcount else 0) < B
      · rw [if_pos hlt]
        exact ⟨1, by simp [recordBatch, resLog, hps], fun _ => le_refl 1⟩
      · rw [if_neg hlt]
        by_cases hdc : (delay != 0 && !dry) = true
        · rw [if_pos hdc]
          obtain ⟨k, hk1, hk2⟩ := ih (emit (recordBatch (resLog p1 .del
            ("Batch deleted "
              ++ toString (if (!dry) = true then p1.rowcount else 0)
              ++ " rows from " ++ tn))
            (if (!dry) = true then p1.rowcount else 0)) (Event.sleep delay))
          refine ⟨k + 1, ?_, fun _ => by omega⟩
          rw [hk1]
          simp [emit, recordBatch, resLog, hps, List.replicate_succ,
            List.append_assoc]
        · rw [if_neg hdc]
          obtain ⟨k, hk1, hk2⟩ := ih (recordBatch (resLog p1 .del
            ("Batch deleted "
              ++ toString (if (!dry) = true then p1.rowcount else 0)
              ++ " rows from " ++ tn))
            (if (!dry) = true then p1.rowcount else 0))
          refine ⟨k + 1, ?_, fun _ => by omega⟩
          rw [hk1]
          simp [recordBatch, resLog, hps, List.replicate_succ,
            List.append_assoc]

/-- The `older_than_days` batching loop only ever appends delete-step result
lines, and appends at least one when it returns normally. -/
theorem olderLoop_steps {σ : Type} (D : DbSession σ) (tn cond : String)
    (B delay : Nat) (dry : Bool) :
    ∀ (fuel : Nat) (st : St σ), ∃ k,
      (olderLoop D tn cond B delay dry fuel st).1.steps =
        st.steps ++ List.replicate k StepTag.del ∧
      ((olderLoop D tn cond B delay dry fuel st).2 = Status.ok → 1 ≤ k) := by
  intro fuel
  induction fuel with
  | zero =>
    intro st
    exact ⟨0, by simp [olderLoop], by simp [olderLoop]⟩
  | succ f ih =>
    intro st
    have hps := run_sql_steps D st ("DELETE FROM `" ++ tn ++ "` WHERE "
      ++ cond ++ " LIMIT " ++ toString B ++ ";") dry
    simp only [olderLoop]
    cases hp : (run_sql D st ("DELETE FROM `" ++ tn ++ "` WHERE " ++ cond
        ++ " LIMIT " ++ toString B ++ ";") dry).2 with
    | error e =>
      exact ⟨0, by simp [hps], by simp⟩
    | ok v =>
      generalize hg : (run_sql D st ("DELETE FROM `" ++ tn ++ "` WHERE "
        ++ cond ++ " LIMIT " ++ toString B ++ ";") dry).1 = p1
      rw [hg] at hps
      by_cases hlt : (if (!dry) = true then p1.rowcount else 0) < B
      · rw [if_pos hlt]
        exact ⟨1, by simp [recordBatch, resLog, hps], fun _ => le_refl 1⟩
      · rw [if_neg hlt]
        by_cases hdc : (delay != 0 && !dry) = true
        · rw [if_pos hdc]
          obtain ⟨k, hk1, hk2⟩ := ih (emit (recordBatch (resLog p1 .del
            ("Batch deleted "
              ++ toString (if (!dry) = true then p1.rowcount else 0)
              ++ " rows from `" ++ tn ++ "`"))
            (if (!dry) = true then p1.rowcount else 0)) (Event.sleep delay))
          refine ⟨k + 1, ?_, fun _ => by omega⟩
          rw [hk1]
          simp [emit, recordBatch, resLog, hps, List.replicate_succ,
            List.append_assoc]
        · rw [if_neg hdc]
          obtain ⟨k, hk1, hk2⟩ := ih (recordBatch (resLog p1 .del
            ("Batch deleted "
              ++ toString (if (!dry) = true then p1.rowcount else 0)
              ++ " rows from `" ++ tn ++ "`"))
            (if (!dry) = true then p1.rowcount else 0))
          refine ⟨k + 1, ?_, fun _ => by omega⟩
          rw [hk1]
          simp [recordBatch, resLog, hps, List.replicate_succ,
            List.append_assoc]

/-- Whether the configured delete strategy reaches a branch of the dispatch
that records a result line: `truncate` / `condition` (case-insensitively), or
`older_than_days` (verbatim) with a day count present. -/
def strategyHandled (t : TableSpec) : Bool :=
  match t.delete_strategy with
  | none => false
  | some s => (pyLower s == "truncate") || (pyLower s == "condition")
      || (s == "older_than_days" && t.delete_older_than_days.isSome)

theorem countP_replicate {α : Type} (p : α → Bool) (k : Nat) (a : α) :
    List.countP p (List.replicate k a) = if p a = true then k else 0 := by
  induction k with
  | zero => simp
  | succ n ih =>
    by_cases h : p a = true <;>
      simp [List.replicate_succ, List.countP_cons, ih, h]

/-- A real-mode dump whose oracle reports success returns a path. -/
theorem dump_table_real_isNone_false {σ : Type} (db_name table_name : String)
    (conn : ConnParams) (storage path : String) (env : Env) (st : St σ)
    (hf : dumpFails (env.dumpOutcome table_name) = false) :
    ((dump_table db_name table_name conn storage path false env st).2).isNone
      = false := by
  unfold dumpFails at hf
  cases hpe : (env.dumpOutcome table_name).popenErr with
  | some e => simp [hpe] at hf
  | none =>
    have hrc : ((env.dumpOutcome table_name).retcode != 0) = false := by
      simpa [hpe] using hf
    unfold dump_table
    by_cases hfs : path ∈ st.fsDirs <;>
      by_cases hs3 : pyLower storage == "s3" <;>
        cases hue : (env.dumpOutcome table_name).uploadErr <;>
          simp [hfs, hpe, hrc, hs3, hue, logL, emit]

/-- The delete section appends only delete-tagged result lines; when it
returns normally and the strategy reaches a recording branch, it appends at
least one. -/
theorem deleteSection_spec {σ : Type} (D : DbSession σ) (env : Env)
    (t : TableSpec) (dry : Bool) (fuel : Nat) (st : St σ) :
    ∃ k, (deleteSection D env t dry fuel st).1.steps =
        st.steps ++ List.replicate k StepTag.del ∧
      ((deleteSection D env t dry fuel st).2 = Status.ok →
        strategyHandled t = true → 1 ≤ k) := by
  cases hds : t.delete_strategy with
  | none => exact ⟨0, by simp [deleteSection, hds], by simp [strategyHandled, hds]⟩
  | some s =>
    simp only [deleteSection, hds]
    by_cases hT : (pyLower s == "truncate") = true
    · rw [if_pos hT]
      cases hx : (run_sql D st ("TRUNCATE TABLE `" ++ t.name ++ "`;") dry).2 with
      | ok v =>
        exact ⟨1, by simp [resLog, run_sql_steps], fun _ _ => le_refl 1⟩
      | error e =>
        exact ⟨1, by simp [resLog, run_sql_steps], fun _ _ => le_refl 1⟩
    · rw [if_neg hT]
      by_cases hC : (pyLower s == "condition") = true
      · rw [if_pos hC]
        by_cases hce : (t.delete_condition.getD "" == "") = true
        · rw [if_pos hce]
          exact ⟨1, by simp [resLog], fun _ _ => le_refl 1⟩
        · rw [if_neg hce]
          by_cases hbz : (t.delete_batch_size.getD 0 != 0) = true
          · rw [if_pos hbz]
            obtain ⟨k, h1, h2⟩ := condLoop_steps D t.name
              (t.delete_condition.getD "") (t.delete_batch_size.getD 0)
              t.delete_batch_delay dry fuel
              (logL st ("Condition delete in batches of "
                ++ toString (t.delete_batch_size.getD 0) ++ ", delay "
                ++ toString t.delete_batch_delay))
            refine ⟨k, ?_, fun hok _ => h2 hok⟩
            rw [h1]
            simp [logL]
          · rw [if_neg hbz]
            cases hx : (run_sql D st ("DELETE FROM `" ++ t.name
                ++ "` WHERE " ++ t.delete_condition.getD "" ++ ";") dry).2 with
            | error e => exact ⟨0, by simp [run_sql_steps], by simp⟩
            | ok v =>
              exact ⟨1, by simp [resLog, run_sql_steps], fun _ _ => le_refl 1⟩
      · rw [if_neg hC]
        by_cases hO : (s == "older_than_days") = true
        · rw [if_pos hO]
          cases hdy : t.delete_older_than_days with
          | none =>
            refine ⟨0, by simp [logL], ?_⟩
            intro _ hsh
            simp [strategyHandled, hds, bool_eq_false_of_not hT,
              bool_eq_false_of_not hC, hdy] at hsh
          | some days =>
            simp only []
            by_cases hbz : (t.delete_batch_size.getD 0 != 0) = true
            · rw [if_pos hbz]
              obtain ⟨k, h1, h2⟩ := olderLoop_steps D t.name
                (olderCondition (t.date_column.getD "date") env.today days)
                (t.delete_batch_size.getD 0) t.delete_batch_delay dry fuel
                (logL st ("Deleting in batches of "
                  ++ toString (t.delete_batch_size.getD 0) ++ " with "
                  ++ toString t.delete_batch_delay ++ "s delay"))
              refine ⟨k, ?_, fun hok _ => h2 hok⟩
              rw [h1]
              simp [logL]
            · rw [if_neg hbz]
              cases hx : (run_sql D st ("DELETE FROM `" ++ t.name
                  ++ "` WHERE " ++ olderCondition (t.date_column.getD "date")
                    env.today days ++ ";") dry).2 with
              | error e => exact ⟨0, by simp [run_sql_steps], by simp⟩
              | ok v =>
                exact ⟨1, by simp [resLog, run_sql_steps], fun _ _ => le_refl 1⟩
        · rw [if_neg hO]
          refine ⟨0, by simp, ?_⟩
          intro _ hsh
          simp [strategyHandled, hds, bool_eq_false_of_not hT,
            bool_eq_false_of_not hC, bool_eq_false_of_not hO] at hsh

/-- Decomposition of `afterGate` on a normal return: one fk line if the audit
is configured, `kd` delete lines, one optimize line if configured. -/
theorem afterGate_spec {σ : Type} (D : DbSession σ) (env : Env)
    (db_name : String) (t : TableSpec) (dry : Bool) (fuel : Nat)
    (Y st' : St σ)
    (h : afterGate D env db_name t dry fuel Y = (st', Status.ok)) :
    ∃ kd, st'.steps = Y.steps
        ++ (if t.check_foreign_keys = true then [StepTag.fk] else [])
        ++ List.replicate kd StepTag.del
        ++ (if t.run_optimize = true then [StepTag.opt] else []) ∧
      (strategyHandled t = true → 1 ≤ kd) := by
  unfold afterGate at h
  obtain ⟨kd, hk1, hk2⟩ := deleteSection_spec D env t dry fuel
    (if t.check_foreign_keys = true then fkSection D db_name t.name Y else Y)
  cases hds : (deleteSection D env t dry fuel
      (if t.check_foreign_keys = true then fkSection D db_name t.name Y
        else Y)).2 with
  | ok =>
    simp only [hds, Prod.mk.injEq] at h
    obtain ⟨h1, _⟩ := h
    refine ⟨kd, ?_, fun hsh => hk2 hds hsh⟩
    rw [← h1]
    by_cases hro : t.run_optimize = true
    · rw [if_pos hro, if_pos hro, optimizeSection_steps, hk1]
      by_cases hfk : t.check_foreign_keys = true
      · rw [if_pos hfk, if_pos hfk, fkSection_steps]
        try simp [List.append_assoc]
      · rw [if_neg hfk, if_neg hfk]
        try simp [List.append_assoc]
    · rw [if_neg hro, if_neg hro, hk1]
      by_cases hfk : t.check_foreign_keys = true
      · rw [if_pos hfk, if_pos hfk, fkSection_steps]
        try simp [List.append_assoc]
      · rw [if_neg hfk, if_neg hfk]
        try simp [List.append_assoc]
  | exc e => simp [hds] at h
  | fuelOut => simp [hds] at h

/-- Tag counting over the step decomposition of one processed table. -/
theorem tagCounts_from_steps {σ : Type} (st st' : St σ) (kd : Nat)
    (bfk bop : Bool)
    (h : st'.steps = st.steps ++ [StepTag.header]
      ++ (if bfk = true then [StepTag.fk] else [])
      ++ List.replicate kd StepTag.del
      ++ (if bop = true then [StepTag.opt] else [])) :
    (bfk = true → tagCount st' .fk = tagCount st .fk + 1) ∧
      (1 ≤ kd → tagCount st' .del ≥ tagCount st .del + 1) ∧
      (bop = true → tagCount st' .opt = tagCount st .opt + 1) ∧
      tagCount st' .backup = tagCount st .backup ∧
      tagCount st' .header = tagCount st .header + 1 := by
  cases bfk <;> cases bop <;>
    simp_all [tagCount, List.countP_append, List.countP_cons,
      countP_replicate, beq_iff_eq]

/-- Fixture: a table with only the backup step configured. -/
def exBackupOnlyTable : TableSpec := { name := "events", dump_before := true }

/-- Claim C6, counterexample: a table configured with `dump_before = true`
whose (dry-run) backup step succeeds appends NO result line for the backup
step — the ResultLog holds only the header — contradicting the claim that
every configured step appends at least one result line regardless of outcome
(success, skip, or error).  (A successful real-mode dump likewise records
nothing: only a dump failure appends a line.) -/
theorem claim_C6_counterexample :
    (process_table unitSession exEnv exConn "app" exBackupOnlyTable true 5
        (st0 () [])).2 = Status.ok ∧
      (process_table unitSession exEnv exConn "app" exBackupOnlyTable true 5
        (st0 () [])).1.results = ["Processing table `app`.`events`"] ∧
      tagCount (process_table unitSession exEnv exConn "app" exBackupOnlyTable
        true 5 (st0 () [])).1 .backup = 0 := by
  refine ⟨?_, ?_, ?_⟩ <;> decide

/-- Claim C6, amended: when `process_table` returns normally and the dump
gate passes (no backup configured, or dry run, or a successful dump), each of
the foreign-key audit and optimize steps appends exactly one result line, a
delete strategy that reaches a recording branch (`truncate` / `condition`
case-insensitively, or `older_than_days` verbatim with a day count) appends
at least one, and the header appends one — but the backup step appends
nothing (it records a line only when the dump fails; an `older_than_days`
strategy without a day count, or a case-mismatched strategy, also records
nothing). -/
theorem claim_C6 {σ : Type} (D : DbSession σ) (env : Env) (conn : ConnParams)
    (db_name : String) (t : TableSpec) (dry : Bool) (fuel : Nat)
    (st st' : St σ)
    (h : process_table D env conn db_name t dry fuel st = (st', Status.ok))
    (hgate : t.dump_before = false ∨ dry = true ∨
      dumpFails (env.dumpOutcome t.name) = false) :
    (t.check_foreign_keys = true → tagCount st' .fk = tagCount st .fk + 1) ∧
      (strategyHandled t = true →
        tagCount st' .del ≥ tagCount st .del + 1) ∧
      (t.run_optimize = true → tagCount st' .opt = tagCount st .opt + 1) ∧
      tagCount st' .backup = tagCount st .backup ∧
      tagCount st' .header = tagCount st .header + 1 := by
  simp only [process_table] at h
  by_cases hd : t.dump_before = true
  · rw [if_pos hd] at h
    have hsome : ((dump_table db_name t.name conn t.dump_storage t.dump_path
        dry env (resLog st .header ("Processing table `" ++ db_name ++ "`.`"
          ++ t.name ++ "`"))).2).isNone = false := by
      rcases hgate with hg | hg | hg
      · rw [hg] at hd
        exact absurd hd (by simp)
      · subst hg
        rw [(dump_table_dry db_name t.name conn t.dump_storage t.dump_path env
          (resLog st .header ("Processing table `" ++ db_name ++ "`.`"
            ++ t.name ++ "`"))).1]
        rfl
      · cases dry with
        | true =>
          rw [(dump_table_dry db_name t.name conn t.dump_storage t.dump_path
            env (resLog st .header ("Processing table `" ++ db_name ++ "`.`"
              ++ t.name ++ "`"))).1]
          rfl
        | false =>
          exact dump_table_real_isNone_false db_name t.name conn
            t.dump_storage t.dump_path env _ hg
    rw [hsome] at h
    simp only [Bool.false_eq_true, if_false] at h
    have h2 : afterGate D env db_name t dry fuel
        ((dump_table db_name t.name conn t.dump_storage t.dump_path dry env
          (resLog st .header ("Processing table `" ++ db_name ++ "`.`"
            ++ t.name ++ "`"))).1) = (st', Status.ok) := h
    obtain ⟨kd, hk1, hk2⟩ := afterGate_spec D env db_name t dry fuel _ _ h2
    have hY : ((dump_table db_name t.name conn t.dump_storage t.dump_path dry
        env (resLog st .header ("Processing table `" ++ db_name ++ "`.`"
          ++ t.name ++ "`"))).1).steps = st.steps ++ [StepTag.header] := by
      rw [dump_table_steps_eq]
      rfl
    rw [hY] at hk1
    obtain ⟨c1, c2, c3, c4, c5⟩ := tagCounts_from_steps st st' kd
      t.check_foreign_keys t.run_optimize hk1
    exact ⟨c1, fun hsh => c2 (hk2 hsh), c3, c4, c5⟩
  · rw [if_neg hd] at h
    have h2 : afterGate D env db_name t dry fuel
        (resLog st .header ("Processing table `" ++ db_name ++ "`.`"
          ++ t.name ++ "`")) = (st', Status.ok) := h
    obtain ⟨kd, hk1, hk2⟩ := afterGate_spec D env db_name t dry fuel _ _ h2
    have hY : (resLog st .header ("Processing table `" ++ db_name ++ "`.`"
        ++ t.name ++ "`")).steps = st.steps ++ [StepTag.header] := rfl
    rw [hY] at hk1
    obtain ⟨c1, c2, c3, c4, c5⟩ := tagCounts_from_steps st st' kd
      t.check_foreign_keys t.run_optimize hk1
    exact ⟨c1, fun hsh => c2 (hk2 hsh), c3, c4, c5⟩

set_option maxRecDepth 10000 in
/-- Claim C6, witness at a concrete input (backup, audit, truncate and
optimize all configured; the dump succeeds). -/
theorem claim_C6_witness :
    (exDumpTable.check_foreign_keys = true →
      tagCount (process_table unitSession exEnv exConn "app" exDumpTable false
          5 (st0 () [])).1 .fk = tagCount (st0 ()
          ([] : List String)) .fk + 1) ∧
      (strategyHandled exDumpTable = true →
        tagCount (process_table unitSession exEnv exConn "app" exDumpTable
            false 5 (st0 () [])).1 .del ≥
          tagCount (st0 () ([] : List String)) .del + 1) ∧
      (exDumpTable.run_optimize = true →
        tagCount (process_table unitSession exEnv exConn "app" exDumpTable
            false 5 (st0 () [])).1 .opt =
          tagCount (st0 () ([] : List String)) .opt + 1) ∧
      tagCount (process_table unitSession exEnv exConn "app" exDumpTable false
          5 (st0 () [])).1 .backup =
        tagCount (st0 () ([] : List String)) .backup ∧
      tagCount (process_table unitSession exEnv exConn "app" exDumpTable false
          5 (st0 () [])).1 .header =
        tagCount (st0 () ([] : List String)) .header + 1 :=
  claim_C6 unitSession exEnv exConn "app" exDumpTable false 5 (st0 () [])
    (process_table unitSession exEnv exConn "app" exDumpTable false 5
      (st0 () [])).1 (by decide) (Or.inr (Or.inr (by decide)))
